import Mathlib

/-!
# Arkanoid on Box2D v3 / SDL3: a shallow embedding of `src/main.c`

The C program keeps its state in process-wide variables and talks to three
collaborators that are not part of the repository: the C floating-point unit
and libm, the Box2D physics engine, and the SDL3 window/renderer layer.

* A C `float` is modelled as a rational number.  Every arithmetic operation of
  the source is the exact rational operation followed by the rounding operator
  `Env.rnd` (binary32 rounding in the real program).  The theorems hold for
  every rounding operator that is monotone, idempotent and exact on the
  integers of magnitude at most `2^24` (`FloatRounding`).  Two such operators
  are used for concrete runs: the identity (exact arithmetic, `exactEnv`) and
  rounding to a 24-bit significand (`roundUp24`, `floatEnv`).
  Overflow to infinity and NaN are outside the model: all quantities of the
  program are bounded far below the binary32 maximum.
* Box2D is modelled as a store of bodies in creation order; the engine's own
  algorithms (`b2World_Step`, `b2MakeRot`, `b2TransformPoint`, the default
  definitions) are fields of `Env`.
* SDL rendering is modelled by the list of render calls a function issues.
-/

namespace Arkanoid

/-! ## Data model -/

/-- Box2D 2D vector (`b2Vec2`). -/
structure b2Vec2 where
  x : ℚ
  y : ℚ
  deriving DecidableEq

/-- Box2D rotation (`b2Rot`): cosine and sine. -/
structure b2Rot where
  c : ℚ
  s : ℚ
  deriving DecidableEq

/-- Box2D rigid transform (`b2Transform`). -/
structure b2Transform where
  p : b2Vec2
  q : b2Rot
  deriving DecidableEq

/-- Box2D body kinds (`b2BodyType`). -/
inductive b2BodyType where
  | b2_staticBody
  | b2_kinematicBody
  | b2_dynamicBody
  deriving DecidableEq

/-- The fields of `b2BodyDef` the program reads or writes. -/
structure b2BodyDef where
  type : b2BodyType
  position : b2Vec2
  rotation : b2Rot
  linearVelocity : b2Vec2
  fixedRotation : Bool
  deriving DecidableEq

/-- The fields of `b2ShapeDef` the program reads or writes. -/
structure b2ShapeDef where
  friction : ℚ
  restitution : ℚ
  enableContactEvents : Bool
  deriving DecidableEq

/-- The fields of `b2WorldDef` the program reads or writes. -/
structure b2WorldDef where
  gravity : b2Vec2
  restitutionThreshold : ℚ
  deriving DecidableEq

/-- Shape geometry: the result of `b2MakeBox hx hy` (a `b2Polygon`) or a `b2Circle`
with the given radius (centre zero, from the `= {0}` initialiser). -/
inductive Geometry where
  | box (hx hy : ℚ)
  | circle (radius : ℚ)
  deriving DecidableEq

/-- Modelled from the spec: Box2D's shape object is not under src/. Section 3: a shape is
attached to exactly one body, has a geometric form, material properties, an optional tag
and may opt in to contact events. -/
structure b2Shape where
  geometry : Geometry
  friction : ℚ
  restitution : ℚ
  enableContactEvents : Bool
  userData : Option String
  deriving DecidableEq

/-- Modelled from the spec: Box2D's body object is not under src/. Section 3: a body has a
kind, position, rotation, linear velocity and a fixed-rotation flag; it owns its shapes. -/
structure b2Body where
  type : b2BodyType
  position : b2Vec2
  rotation : b2Rot
  linearVelocity : b2Vec2
  fixedRotation : Bool
  shapes : List b2Shape
  deriving DecidableEq

/-- The contact events of the last step (`b2ContactEvents`); only `beginCount` is read. -/
structure b2ContactEvents where
  beginCount : Int
  deriving DecidableEq

/-- Modelled from the spec: Box2D's world object is not under src/. Section 3: the world
owns all bodies and shapes and the contact events produced by the last step. Bodies are
kept in creation order. -/
structure b2World where
  gravity : b2Vec2
  restitutionThreshold : ℚ
  bodies : List b2Body
  contactEvents : b2ContactEvents
  deriving DecidableEq

/-- A body handle: the index of the body in creation order. -/
abbrev b2BodyId := Nat

/-- A shape handle: the owning body and the index of the shape on it. -/
structure b2ShapeId where
  body : b2BodyId
  index : Nat
  deriving DecidableEq

/-- The collaborators of the program that are not in the repository: C float
arithmetic and libm, and the Box2D and SDL functions whose results the program uses. -/
structure Env where
  /-- rounding of a real result to `float` -/
  rnd : ℚ → ℚ
  /-- rounding of a real result to `double` -/
  rndDouble : ℚ → ℚ
  /-- libm `cos` on `double` -/
  cos : ℚ → ℚ
  /-- libm `sin` on `double` -/
  sin : ℚ → ℚ
  b2MakeRot : ℚ → b2Rot
  b2TransformPoint : b2Transform → b2Vec2 → b2Vec2
  b2DefaultWorldDef : b2WorldDef
  b2DefaultBodyDef : b2BodyDef
  b2DefaultShapeDef : b2ShapeDef
  /-- the physics step: world, time step, sub-step count -/
  b2World_Step : b2World → ℚ → Int → b2World
  /-- colour extraction `SDL_GetRGB` for the window surface format -/
  SDL_GetRGB : Nat → Nat × Nat × Nat

/-- The properties of binary32 rounding the proofs rely on. -/
def FloatRounding (rnd : ℚ → ℚ) : Prop :=
  Monotone rnd ∧ (∀ q, rnd (rnd q) = rnd q) ∧
    (∀ n : ℤ, |n| ≤ 16777216 → rnd (n : ℚ) = (n : ℚ))

/-! ## Globals of `main.c` -/

/-- `float pixelsPerMeter = 30.f;` (never assigned afterwards). -/
def pixelsPerMeter : ℚ := 30

/-- `float racketSpeed = 5.f;` (never assigned afterwards). -/
def racketSpeed : ℚ := 5

/-- `SDL_ALPHA_OPAQUE`. -/
def SDL_ALPHA_OPAQUE : Nat := 255

/-! ## The Box2D calls used by the program -/

/-- Modelled from the spec: `b2CreateWorld` is not under src/; it creates an empty world
from the definition. -/
def b2CreateWorld (d : b2WorldDef) : b2World :=
  { gravity := d.gravity, restitutionThreshold := d.restitutionThreshold,
    bodies := [], contactEvents := ⟨0⟩ }

/-- Modelled from the spec: `b2World_SetRestitutionThreshold` is not under src/. -/
def b2World_SetRestitutionThreshold (w : b2World) (v : ℚ) : b2World :=
  { w with restitutionThreshold := v }

/-- Modelled from the spec: `b2CreateBody` is not under src/; the world gains one body
without shapes, and the handle of the new body is returned. -/
def b2CreateBody (w : b2World) (d : b2BodyDef) : b2World × b2BodyId :=
  ({ w with bodies := w.bodies ++ [{ type := d.type, position := d.position,
                                      rotation := d.rotation,
                                      linearVelocity := d.linearVelocity,
                                      fixedRotation := d.fixedRotation, shapes := [] }] },
   w.bodies.length)

/-- Apply `f` to the body with handle `id`; a handle that names no body changes nothing. -/
def updateBody (w : b2World) (id : b2BodyId) (f : b2Body → b2Body) : b2World :=
  match w.bodies[id]? with
  | some b => { w with bodies := w.bodies.set id (f b) }
  | none => w

/-- Attach a shape with the given geometry to a body. -/
def createShape (w : b2World) (id : b2BodyId) (d : b2ShapeDef) (g : Geometry) :
    b2World × b2ShapeId :=
  (updateBody w id (fun b => { b with shapes := b.shapes ++
      [{ geometry := g, friction := d.friction, restitution := d.restitution,
         enableContactEvents := d.enableContactEvents, userData := none }] }),
   ⟨id, match w.bodies[id]? with | some b => b.shapes.length | none => 0⟩)

/-- Modelled from the spec: `b2CreatePolygonShape` is not under src/; the shape is attached
to exactly one body. -/
def b2CreatePolygonShape (w : b2World) (id : b2BodyId) (d : b2ShapeDef) (g : Geometry) :
    b2World × b2ShapeId :=
  createShape w id d g

/-- Modelled from the spec: `b2CreateCircleShape` is not under src/; the shape is attached
to exactly one body. -/
def b2CreateCircleShape (w : b2World) (id : b2BodyId) (d : b2ShapeDef) (g : Geometry) :
    b2World × b2ShapeId :=
  createShape w id d g

/-- `b2MakeBox hx hy`: a box polygon given by its half extents. -/
def b2MakeBox (hx hy : ℚ) : Geometry := Geometry.box hx hy

/-- Modelled from the spec: `b2Shape_SetUserData` is not under src/; it stores the tag of
the shape. -/
def b2Shape_SetUserData (w : b2World) (s : b2ShapeId) (tag : String) : b2World :=
  updateBody w s.body (fun b =>
    match b.shapes[s.index]? with
    | some sh => { b with shapes := b.shapes.set s.index { sh with userData := some tag } }
    | none => b)

/-- Modelled from the spec: `b2Body_SetLinearVelocity` is not under src/. -/
def b2Body_SetLinearVelocity (w : b2World) (id : b2BodyId) (v : b2Vec2) : b2World :=
  updateBody w id (fun b => { b with linearVelocity := v })

/-- Modelled from the spec: `b2Body_SetFixedRotation` is not under src/. -/
def b2Body_SetFixedRotation (w : b2World) (id : b2BodyId) (flag : Bool) : b2World :=
  updateBody w id (fun b => { b with fixedRotation := flag })

/-- Modelled from the spec: `b2Body_GetPosition` is not under src/; it reads the position
of the body (the origin stands for a handle that names no body, which Box2D asserts
against). -/
def b2Body_GetPosition (w : b2World) (id : b2BodyId) : b2Vec2 :=
  match w.bodies[id]? with
  | some b => b.position
  | none => ⟨0, 0⟩

/-- Modelled from the spec: `b2Body_GetTransform` is not under src/; position and rotation
of the body, when the handle names one. -/
def b2Body_GetTransform (w : b2World) (id : b2BodyId) : Option b2Transform :=
  (w.bodies[id]?).map (fun b => ⟨b.position, b.rotation⟩)

/-- Modelled from the spec: `b2Body_SetTransform` is not under src/; the paddle's kinematic
transform is set by direct assignment of position and rotation. -/
def b2Body_SetTransform (w : b2World) (id : b2BodyId) (p : b2Vec2) (q : b2Rot) : b2World :=
  updateBody w id (fun b => { b with position := p, rotation := q })

/-- Modelled from the spec: `b2World_GetContactEvents` is not under src/; it returns the
contact events produced by the last step. -/
def b2World_GetContactEvents (w : b2World) : b2ContactEvents := w.contactEvents

/-! ## `initPhysicsWorld` -/

/-- The three globals `initPhysicsWorld` assigns. -/
structure PhysicsGlobals where
  worldId : b2World
  racketBodyId : b2BodyId
  ballBodyId : b2BodyId
  deriving DecidableEq

/-- A float quotient `a / pixelsPerMeter`. -/
def toSim (env : Env) (a : ℚ) : ℚ := env.rnd (a / pixelsPerMeter)

/-- The part of `initPhysicsWorld` that creates the left wall (lines 141-150). -/
def createLeftWall (env : Env) (worldId : b2World) : b2World :=
  let leftWallBodyDef := env.b2DefaultBodyDef
  let leftWallBodyDef := { leftWallBodyDef with type := b2BodyType.b2_staticBody }
  let leftWallBodyDef := { leftWallBodyDef with position := ⟨toSim env 10, toSim env 150⟩ }
  let newBody := b2CreateBody worldId leftWallBodyDef
  let worldId := newBody.1
  let leftWallBodyId := newBody.2
  let leftWallShape := b2MakeBox (toSim env 10) (toSim env 150)
  let leftWallShapeDef := env.b2DefaultShapeDef
  let leftWallShapeDef := { leftWallShapeDef with friction := 0 }
  let newShape := b2CreatePolygonShape worldId leftWallBodyId leftWallShapeDef leftWallShape
  let worldId := newShape.1
  worldId

/-- The part of `initPhysicsWorld` that creates the right wall (lines 152-160). -/
def createRightWall (env : Env) (worldId : b2World) : b2World :=
  let rightWallBodyDef := env.b2DefaultBodyDef
  let rightWallBodyDef := { rightWallBodyDef with type := b2BodyType.b2_staticBody }
  let rightWallBodyDef := { rightWallBodyDef with position := ⟨toSim env 390, toSim env 150⟩ }
  let newBody := b2CreateBody worldId rightWallBodyDef
  let worldId := newBody.1
  let rightWallBodyId := newBody.2
  let rightWallShape := b2MakeBox (toSim env 10) (toSim env 150)
  let rightWallShapeDef := env.b2DefaultShapeDef
  let rightWallShapeDef := { rightWallShapeDef with friction := 0 }
  let newShape := b2CreatePolygonShape worldId rightWallBodyId rightWallShapeDef rightWallShape
  let worldId := newShape.1
  worldId

/-- The part of `initPhysicsWorld` that creates the top wall (lines 162-170). -/
def createTopWall (env : Env) (worldId : b2World) : b2World :=
  let topWallBodyDef := env.b2DefaultBodyDef
  let topWallBodyDef := { topWallBodyDef with type := b2BodyType.b2_staticBody }
  let topWallBodyDef := { topWallBodyDef with position := ⟨toSim env 200, toSim env 10⟩ }
  let newBody := b2CreateBody worldId topWallBodyDef
  let worldId := newBody.1
  let topWallBodyId := newBody.2
  let topWallShape := b2MakeBox (toSim env 180) (toSim env 10)
  let topWallShapeDef := env.b2DefaultShapeDef
  let topWallShapeDef := { topWallShapeDef with friction := 0 }
  let newShape := b2CreatePolygonShape worldId topWallBodyId topWallShapeDef topWallShape
  let worldId := newShape.1
  worldId

/-- The part of `initPhysicsWorld` that creates the bottom wall (lines 172-180). -/
def createBottomWall (env : Env) (worldId : b2World) : b2World :=
  let bottomWallBodyDef := env.b2DefaultBodyDef
  let bottomWallBodyDef := { bottomWallBodyDef with type := b2BodyType.b2_staticBody }
  let bottomWallBodyDef :=
    { bottomWallBodyDef with position := ⟨toSim env 200, toSim env 290⟩ }
  let newBody := b2CreateBody worldId bottomWallBodyDef
  let worldId := newBody.1
  let bottomWallBodyId := newBody.2
  let bottomWallShape := b2MakeBox (toSim env 180) (toSim env 10)
  let bottomWallShapeDef := env.b2DefaultShapeDef
  let bottomWallShapeDef := { bottomWallShapeDef with friction := 0 }
  let newShape := b2CreatePolygonShape worldId bottomWallBodyId bottomWallShapeDef bottomWallShape
  let worldId := newShape.1
  worldId

/-- The part of `initPhysicsWorld` that creates the racket (lines 183-192); also the value assigned to `racketBodyId`. -/
def createRacket (env : Env) (worldId : b2World) : b2World × b2BodyId :=
  let racketBodyDef := env.b2DefaultBodyDef
  let racketBodyDef := { racketBodyDef with type := b2BodyType.b2_kinematicBody }
  let racketBodyDef := { racketBodyDef with position := ⟨toSim env 200, toSim env 265⟩ }
  let newBody := b2CreateBody worldId racketBodyDef
  let worldId := newBody.1
  let racketBodyId := newBody.2
  let racketShape := b2MakeBox (toSim env 30) (toSim env 5)
  let racketShapeDef := env.b2DefaultShapeDef
  let racketShapeDef := { racketShapeDef with friction := 0 }
  let newShape := b2CreatePolygonShape worldId racketBodyId racketShapeDef racketShape
  let worldId := newShape.1
  let racketShapeId := newShape.2
  let worldId := b2Shape_SetUserData worldId racketShapeId "racket"
  (worldId, racketBodyId)

/-- The part of `initPhysicsWorld` that creates the ball (lines 195-223); also the value assigned to `ballBodyId`. -/
def createBall (env : Env) (worldId : b2World) : b2World × b2BodyId :=
  let ballBodyDef := env.b2DefaultBodyDef
  let ballBodyDef := { ballBodyDef with type := b2BodyType.b2_dynamicBody }
  let ballBodyDef := { ballBodyDef with position := ⟨toSim env 200, toSim env 250⟩ }
  let newBody := b2CreateBody worldId ballBodyDef
  let worldId := newBody.1
  let ballBodyId := newBody.2
  let ballShape := Geometry.circle (toSim env 5)
  let ballShapeDef := env.b2DefaultShapeDef
  let ballShapeDef := { ballShapeDef with enableContactEvents := true }
  let ballShapeDef := { ballShapeDef with friction := 0 }
  let ballShapeDef := { ballShapeDef with restitution := 1 }
  let newShape := b2CreateCircleShape worldId ballBodyId ballShapeDef ballShape
  let worldId := newShape.1
  let ballShapeId := newShape.2
  let worldId := b2Body_SetLinearVelocity worldId ballBodyId ⟨0, -(env.rnd (29 / 10))⟩
  let worldId := b2Body_SetFixedRotation worldId ballBodyId true
  let worldId := b2Shape_SetUserData worldId ballShapeId "ball"
  (worldId, ballBodyId)

/-- The part of `initPhysicsWorld` that creates the first block (lines 226-244). -/
def createBlock0 (env : Env) (worldId : b2World) : b2World :=
  let block0BodyDef := env.b2DefaultBodyDef
  let block0BodyDef := { block0BodyDef with type := b2BodyType.b2_staticBody }
  let block0BodyDef := { block0BodyDef with position := ⟨toSim env 206, toSim env 120⟩ }
  let block0BodyDef := { block0BodyDef with
    rotation := env.b2MakeRot (env.rnd (env.rnd (85 * env.rnd (314 / 100)) / 180)) }
  let newBody := b2CreateBody worldId block0BodyDef
  let worldId := newBody.1
  let block0BodyId := newBody.2
  let block0Shape := b2MakeBox (toSim env 50) (toSim env 5)
  let block0ShapeDef := env.b2DefaultShapeDef
  let block0ShapeDef := { block0ShapeDef with friction := 0 }
  let newShape := b2CreatePolygonShape worldId block0BodyId block0ShapeDef block0Shape
  let worldId := newShape.1
  let block0ShapeId := newShape.2
  let worldId := b2Shape_SetUserData worldId block0ShapeId "block"
  worldId

/-- `initPhysicsWorld`: the world is created, then the seven bodies in source order. -/
def initPhysicsWorld (env : Env) : PhysicsGlobals :=
  -- Create a physical world with zero gravity
  let gravity : b2Vec2 := ⟨0, 0⟩
  let worldDef := env.b2DefaultWorldDef
  let worldDef := { worldDef with gravity := gravity }
  let worldId := b2CreateWorld worldDef
  let worldId := b2World_SetRestitutionThreshold worldId (env.rnd (1 / 10))
  -- Create walls
  let worldId := createLeftWall env worldId
  let worldId := createRightWall env worldId
  let worldId := createTopWall env worldId
  let worldId := createBottomWall env worldId
  let racket := createRacket env worldId
  let ball := createBall env racket.1
  let worldId := createBlock0 env ball.1
  { worldId := worldId, racketBodyId := racket.2, ballBodyId := ball.2 }

/-! ## Program state and the SDL callbacks -/

/-- The mutable process-wide variables of `main.c`. -/
structure App where
  worldId : b2World
  racketBodyId : b2BodyId
  ballBodyId : b2BodyId
  keyLeft : Bool
  keyRight : Bool
  lastTickTime : Nat
  deriving DecidableEq

/-- The variables after a successful `SDL_AppInit`: the static initialisers plus the
effect of `initPhysicsWorld`. -/
def startApp (env : Env) : App :=
  let g := initPhysicsWorld env
  { worldId := g.worldId, racketBodyId := g.racketBodyId, ballBodyId := g.ballBodyId,
    keyLeft := false, keyRight := false, lastTickTime := 0 }

/-- `SDL_AppResult`. -/
inductive SDL_AppResult where
  | SDL_APP_CONTINUE
  | SDL_APP_SUCCESS
  | SDL_APP_FAILURE
  deriving DecidableEq

/-- The event types `SDL_AppEvent` distinguishes; every other type is `other`. -/
inductive SDL_EventType where
  | SDL_EVENT_QUIT
  | SDL_EVENT_KEY_DOWN
  | SDL_EVENT_KEY_UP
  | other (code : Nat)
  deriving DecidableEq

/-- The scancodes `SDL_AppEvent` distinguishes; every other scancode is `other`. -/
inductive SDL_Scancode where
  | SDL_SCANCODE_LEFT
  | SDL_SCANCODE_RIGHT
  | other (code : Nat)
  deriving DecidableEq

/-- The fields of `SDL_Event` the handler reads: `type` and `key.scancode`. -/
structure SDL_Event where
  type : SDL_EventType
  scancode : SDL_Scancode
  deriving DecidableEq

/-- `SDL_AppEvent`. -/
def SDL_AppEvent (app : App) (event : SDL_Event) : App × SDL_AppResult :=
  if event.type = SDL_EventType.SDL_EVENT_QUIT then
    (app, SDL_AppResult.SDL_APP_SUCCESS)
  else if event.type = SDL_EventType.SDL_EVENT_KEY_DOWN then
    if event.scancode = SDL_Scancode.SDL_SCANCODE_LEFT then
      ({ app with keyLeft := true }, SDL_AppResult.SDL_APP_CONTINUE)
    else if event.scancode = SDL_Scancode.SDL_SCANCODE_RIGHT then
      ({ app with keyRight := true }, SDL_AppResult.SDL_APP_CONTINUE)
    else (app, SDL_AppResult.SDL_APP_CONTINUE)
  else if event.type = SDL_EventType.SDL_EVENT_KEY_UP then
    if event.scancode = SDL_Scancode.SDL_SCANCODE_LEFT then
      ({ app with keyLeft := false }, SDL_AppResult.SDL_APP_CONTINUE)
    else if event.scancode = SDL_Scancode.SDL_SCANCODE_RIGHT then
      ({ app with keyRight := false }, SDL_AppResult.SDL_APP_CONTINUE)
    else (app, SDL_AppResult.SDL_APP_CONTINUE)
  else (app, SDL_AppResult.SDL_APP_CONTINUE)

/-- The `uint32_t` difference `currentTickTime - lastTickTime`. -/
def tickDiff (currentTickTime lastTickTime : Nat) : Int :=
  ((currentTickTime : Int) - (lastTickTime : Int)) % 4294967296

/-- `float deltaTime = (currentTickTime - lastTickTime) / 1000.f;` -/
def deltaTime (env : Env) (currentTickTime lastTickTime : Nat) : ℚ :=
  env.rnd (env.rnd ((tickDiff currentTickTime lastTickTime : Int) : ℚ) / 1000)

/-- The "Racket control" block of `SDL_AppIterate` (lines 84-99): the world after it. -/
def racketControl (env : Env) (app : App) (deltaTime : ℚ) : b2World :=
  if app.keyLeft then
    let x := (b2Body_GetPosition app.worldId app.racketBodyId).x
    let y := (b2Body_GetPosition app.worldId app.racketBodyId).y
    let x := env.rnd (x - env.rnd (racketSpeed * deltaTime))
    if env.rnd (x * pixelsPerMeter) > 50 then
      b2Body_SetTransform app.worldId app.racketBodyId ⟨x, y⟩ (env.b2MakeRot 0)
    else app.worldId
  else if app.keyRight then
    let x := (b2Body_GetPosition app.worldId app.racketBodyId).x
    let y := (b2Body_GetPosition app.worldId app.racketBodyId).y
    let x := env.rnd (x + env.rnd (racketSpeed * deltaTime))
    if env.rnd (x * pixelsPerMeter) < 350 then
      b2Body_SetTransform app.worldId app.racketBodyId ⟨x, y⟩ (env.b2MakeRot 0)
    else app.worldId
  else app.worldId

/-- What one call of `SDL_AppIterate` leaves behind: the variables, the lines written to
standard output and the returned result. -/
structure IterateOut where
  app : App
  stdout : List String
  result : SDL_AppResult
  deriving DecidableEq

/-- `SDL_AppIterate`; `ticks` is the value returned by `SDL_GetTicks` (a 64-bit count,
stored into a `uint32_t`).  The read of the ball velocity into the unused `velBefore` and
the render calls at the end of the function change none of the variables and are not part
of the result. -/
def SDL_AppIterate (env : Env) (app : App) (ticks : Nat) : IterateOut :=
  let currentTickTime := ticks % 4294967296
  let deltaTime := deltaTime env currentTickTime app.lastTickTime
  let app := { app with lastTickTime := currentTickTime }
  -- Racket control
  let worldId := racketControl env app deltaTime
  let worldId := env.b2World_Step worldId (env.rnd (env.rndDouble (16 / 1000))) 5
  let contactEvents := b2World_GetContactEvents worldId
  let stdout := if contactEvents.beginCount > 0 then ["collision\n"] else []
  { app := { app with worldId := worldId }, stdout := stdout,
    result := SDL_AppResult.SDL_APP_CONTINUE }

/-! ## Debug-draw callbacks -/

/-- The calls made on the SDL renderer. -/
inductive RenderCall where
  | SDL_SetRenderDrawColor (r g b a : Nat)
  | SDL_RenderLine (x0 y0 x1 y1 : ℚ)
  deriving DecidableEq

/-- The `for` loop of `drawSolidPolygon` from index `i` on.  Reading `vertices` outside
the array yields `none`. -/
def polygonLoop (env : Env) (transform : b2Transform) (vertices : List b2Vec2)
    (vertexCount : Int) (i : Nat) : Option (List RenderCall) :=
  if (i : Int) < vertexCount then
    let next_index : Nat := if (i : Int) + 1 = vertexCount then 0 else i + 1
    match vertices[i]?, vertices[next_index]? with
    | some v0, some v1 =>
      let p0 := env.b2TransformPoint transform v0
      let p1 := env.b2TransformPoint transform v1
      let x0 := env.rnd (p0.x * pixelsPerMeter)
      let y0 := env.rnd (p0.y * pixelsPerMeter)
      let x1 := env.rnd (p1.x * pixelsPerMeter)
      let y1 := env.rnd (p1.y * pixelsPerMeter)
      (polygonLoop env transform vertices vertexCount (i + 1)).map
        (fun rest => RenderCall.SDL_RenderLine x0 y0 x1 y1 :: rest)
    | _, _ => none
  else some []
termination_by (vertexCount - (i : Int)).toNat
decreasing_by omega

/-- `drawSolidPolygon`: the render calls it issues, in order. -/
def drawSolidPolygon (env : Env) (transform : b2Transform) (vertices : List b2Vec2)
    (vertexCount : Int) (_radius : ℚ) (color : Nat) : Option (List RenderCall) :=
  let rgb := env.SDL_GetRGB color
  (polygonLoop env transform vertices vertexCount 0).map
    (fun lines => RenderCall.SDL_SetRenderDrawColor rgb.1 rgb.2.1 rgb.2.2 SDL_ALPHA_OPAQUE
      :: lines)

/-- `const int numberOfSegments = 20;` -/
def numberOfSegments : Nat := 20

/-- `const float angleStep = 360.f / numberOfSegments;` -/
def angleStep (env : Env) : ℚ := env.rnd (360 / (numberOfSegments : ℚ))

/-- The `for` loop of `drawSolidCircle` (lines 294-307) from index `i` on, with the current
values of `x0`, `y0` and `angle`.  The argument of `cos` and `sin` is a float; the product
with `radius` is a `double` narrowed to `float` by the assignment. -/
def circleLoop (env : Env) (transform : b2Transform) (radius : ℚ) (i : Nat)
    (x0 y0 angle : ℚ) : List RenderCall :=
  if i < numberOfSegments then
    let x := env.rnd (env.rndDouble
      (radius * env.cos (env.rnd (env.rnd (angle * env.rnd (314 / 100)) / 180))))
    let y := env.rnd (env.rndDouble
      (radius * env.sin (env.rnd (env.rnd (angle * env.rnd (314 / 100)) / 180))))
    let p1 := env.b2TransformPoint transform ⟨x, y⟩
    let x1 := env.rnd (p1.x * pixelsPerMeter)
    let y1 := env.rnd (p1.y * pixelsPerMeter)
    let angle := env.rnd (angle + angleStep env)
    let angle := if angle ≥ 360 then 0 else angle
    RenderCall.SDL_RenderLine x0 y0 x1 y1 ::
      circleLoop env transform radius (i + 1) x1 y1 angle
  else []
termination_by numberOfSegments - i

/-- `drawSolidCircle`: the render calls it issues, in order. -/
def drawSolidCircle (env : Env) (transform : b2Transform) (radius : ℚ) (color : Nat) :
    List RenderCall :=
  let angle : ℚ := 0
  let rgb := env.SDL_GetRGB color
  let x := env.rnd (env.rndDouble
    (radius * env.cos (env.rnd (env.rnd (angle * env.rnd (314 / 100)) / 180))))
  let y := env.rnd (env.rndDouble
    (radius * env.sin (env.rnd (env.rnd (angle * env.rnd (314 / 100)) / 180))))
  let p0 := env.b2TransformPoint transform ⟨x, y⟩
  let x0 := env.rnd (p0.x * pixelsPerMeter)
  let y0 := env.rnd (p0.y * pixelsPerMeter)
  let angle := env.rnd (angle + angleStep env)
  RenderCall.SDL_SetRenderDrawColor rgb.1 rgb.2.1 rgb.2.2 SDL_ALPHA_OPAQUE ::
    circleLoop env transform radius 0 x0 y0 angle

/-! ## Concrete collaborators for running the model -/

/-- The rigid transform of Box2D in exact arithmetic. -/
def exactTransformPoint (t : b2Transform) (p : b2Vec2) : b2Vec2 :=
  ⟨(t.q.c * p.x - t.q.s * p.y) + t.p.x, (t.q.s * p.x + t.q.c * p.y) + t.p.y⟩

/-- Exact arithmetic, rational stand-ins for `cos` and `sin`, Box2D's documented default
material, and a physics step that moves nothing. -/
def exactEnv : Env where
  rnd := id
  rndDouble := id
  cos := fun a => 1 - a * a / 2
  sin := fun a => a - a * a * a / 6
  b2MakeRot := fun a => ⟨1 - a * a / 2, a - a * a * a / 6⟩
  b2TransformPoint := exactTransformPoint
  b2DefaultWorldDef := ⟨⟨0, -10⟩, 1⟩
  b2DefaultBodyDef := ⟨b2BodyType.b2_staticBody, ⟨0, 0⟩, ⟨1, 0⟩, ⟨0, 0⟩, false⟩
  b2DefaultShapeDef := ⟨6 / 10, 0, true⟩
  b2World_Step := fun w _ _ => w
  SDL_GetRGB := fun c => (c / 65536 % 256, c / 256 % 256, c % 256)

/-! ## Runs of the frame loop -/

/-- One frame as the loop sees it: the key flags left behind by the events that arrived
since the previous frame, and the value `SDL_GetTicks` returns. -/
structure Frame where
  keyLeft : Bool
  keyRight : Bool
  ticks : Nat
  deriving DecidableEq

/-- The variables after the given frames, each with its own key flags. -/
def runFrames (env : Env) (app : App) : List Frame → App
  | [] => app
  | f :: fs =>
    runFrames env
      (SDL_AppIterate env { app with keyLeft := f.keyLeft, keyRight := f.keyRight } f.ticks).app
      fs

/-- The variables after `SDL_AppIterate` has run once per tick value, with no event
in between. -/
def runTicks (env : Env) (app : App) : List Nat → App
  | [] => app
  | t :: ts => runTicks env (SDL_AppIterate env app t).app ts

/-- The variables after the given events have been handled in order. -/
def runEvents (app : App) (events : List SDL_Event) : App :=
  events.foldl (fun a e => (SDL_AppEvent a e).1) app

/-- The claim's reading of a held key: whether the last key-down or key-up event for
scancode `sc` was a key-down, and `init` when no such event occurred. -/
def lastKeyState (sc : SDL_Scancode) (init : Bool) (events : List SDL_Event) : Bool :=
  events.foldl (fun held e =>
    if e.scancode = sc ∧ e.type = SDL_EventType.SDL_EVENT_KEY_DOWN then true
    else if e.scancode = sc ∧ e.type = SDL_EventType.SDL_EVENT_KEY_UP then false
    else held) init

/-- The claim's candidate position of the paddle: the current `x` minus
`racketSpeed * deltaTime` when the left key is held, plus it when only the right key is
held, and none when no key is held. -/
def candidateX (env : Env) (keyLeft keyRight : Bool) (x dt : ℚ) : Option ℚ :=
  if keyLeft then some (env.rnd (x - env.rnd (racketSpeed * dt)))
  else if keyRight then some (env.rnd (x + env.rnd (racketSpeed * dt)))
  else none

/-- The assumption on the engine under which the physics step does not move the kinematic
paddle: a body definition is at rest by default, and a step leaves every kinematic body
that is at rest exactly as it is.  (The program never sets an angular velocity, so the
model carries none.) -/
def RestingKinematicKept (env : Env) : Prop :=
  env.b2DefaultBodyDef.linearVelocity = ⟨0, 0⟩ ∧
  ∀ (w : b2World) (t : ℚ) (n : Int) (id : b2BodyId) (b : b2Body),
    w.bodies[id]? = some b → b.type = b2BodyType.b2_kinematicBody →
    b.linearVelocity = ⟨0, 0⟩ → (env.b2World_Step w t n).bodies[id]? = some b

/-- The number of "collision" lines in an output. -/
def collisionLines (out : List String) : Nat := out.count "collision\n"

/-- A physics engine that reports two begin-events on every step. -/
def twoContactsEnv : Env :=
  { exactEnv with b2World_Step := fun w _ _ => { w with contactEvents := ⟨2⟩ } }

/-- The body the builder leaves behind for a box-shaped body without velocity. -/
def builtBox (env : Env) (type : b2BodyType) (px py hx hy : ℚ) (rot : b2Rot)
    (tag : Option String) : b2Body :=
  { type := type, position := ⟨toSim env px, toSim env py⟩, rotation := rot,
    linearVelocity := env.b2DefaultBodyDef.linearVelocity,
    fixedRotation := env.b2DefaultBodyDef.fixedRotation,
    shapes := [{ geometry := Geometry.box (toSim env hx) (toSim env hy), friction := 0,
                 restitution := env.b2DefaultShapeDef.restitution,
                 enableContactEvents := env.b2DefaultShapeDef.enableContactEvents,
                 userData := tag }] }

/-- The ball the builder leaves behind. -/
def builtBall (env : Env) : b2Body :=
  { type := b2BodyType.b2_dynamicBody, position := ⟨toSim env 200, toSim env 250⟩,
    rotation := env.b2DefaultBodyDef.rotation,
    linearVelocity := ⟨0, -(env.rnd (29 / 10))⟩, fixedRotation := true,
    shapes := [{ geometry := Geometry.circle (toSim env 5), friction := 0, restitution := 1,
                 enableContactEvents := true, userData := some "ball" }] }

/-- The paddle invariant: the racket body exists, is kinematic and at rest, its `x` is a
float value, and its pixel position as the bound test computes it lies strictly between 50
and 350. -/
def PaddleInv (env : Env) (app : App) : Prop :=
  ∃ b : b2Body, app.worldId.bodies[app.racketBodyId]? = some b ∧
    (b.type = b2BodyType.b2_kinematicBody ∧ b.linearVelocity = ⟨0, 0⟩) ∧
    env.rnd b.position.x = b.position.x ∧
    50 < env.rnd (b.position.x * pixelsPerMeter) ∧
    env.rnd (b.position.x * pixelsPerMeter) < 350

/-- The racket body after an accepted move to `x`. -/
def movedTo (env : Env) (b : b2Body) (x : ℚ) : b2Body :=
  { b with position := ⟨x, b.position.y⟩, rotation := env.b2MakeRot 0 }

/-- The states the program can be in at the start of a frame: those reached from the
state after start-up by finitely many frames. -/
def Reachable (env : Env) (app : App) : Prop :=
  ∃ frames : List Frame, app = runFrames env (startApp env) frames

/-- Modelled from the spec: `b2Body_GetLinearVelocity` is not under src/; it reads the
linear velocity of the body, when the handle names one. -/
def b2Body_GetLinearVelocity (w : b2World) (id : b2BodyId) : Option b2Vec2 :=
  (w.bodies[id]?).map (fun b => b.linearVelocity)

/-- The half width of a body that carries a single box shape. -/
def halfWidth (b : b2Body) : Option ℚ :=
  match b.shapes with
  | [s] =>
    match s.geometry with
    | Geometry.box hx _ => some hx
    | Geometry.circle _ => none
  | _ => none

/-- The physics step called with the fixed arguments of `SDL_AppIterate`. -/
def fixedStep (env : Env) (w : b2World) : b2World :=
  env.b2World_Step w (env.rnd (env.rndDouble (16 / 1000))) 5

/-- A physics engine that moves every body by its velocity times the time step (no
collisions): a step that changes the world, for runs of the model. -/
def driftEnv : Env :=
  { exactEnv with
    b2World_Step := fun w t _ =>
      { w with bodies := w.bodies.map (fun b =>
          { b with position := ⟨b.position.x + b.linearVelocity.x * t,
                                b.position.y + b.linearVelocity.y * t⟩ }) } }

/-- The claim's pixel point of a vertex: the transformed vertex times `pixelsPerMeter`. -/
def pixelPoint (env : Env) (transform : b2Transform) (v : b2Vec2) : ℚ × ℚ :=
  (env.rnd ((env.b2TransformPoint transform v).x * pixelsPerMeter),
   env.rnd ((env.b2TransformPoint transform v).y * pixelsPerMeter))

/-- The line draw from point `p` to point `q`. -/
def segment (p q : ℚ × ℚ) : RenderCall := RenderCall.SDL_RenderLine p.1 p.2 q.1 q.2

/-- The start point of a line draw. -/
def startPoint : RenderCall → Option (ℚ × ℚ)
  | RenderCall.SDL_RenderLine x0 y0 _ _ => some (x0, y0)
  | RenderCall.SDL_SetRenderDrawColor _ _ _ _ => none

/-- The end point of a line draw. -/
def endPoint : RenderCall → Option (ℚ × ℚ)
  | RenderCall.SDL_RenderLine _ _ x1 y1 => some (x1, y1)
  | RenderCall.SDL_SetRenderDrawColor _ _ _ _ => none

/-- The colour call both callbacks issue first. -/
def colorCall (env : Env) (color : Nat) : RenderCall :=
  RenderCall.SDL_SetRenderDrawColor (env.SDL_GetRGB color).1 (env.SDL_GetRGB color).2.1
    (env.SDL_GetRGB color).2.2 SDL_ALPHA_OPAQUE

/-- The `i`-th edge of the closed loop through `vertices`, from vertex `i` to vertex
`(i + 1) mod n`. -/
def loopEdge (env : Env) (transform : b2Transform) (vertices : List b2Vec2) (i : Nat) :
    RenderCall :=
  segment (pixelPoint env transform (vertices.getD i ⟨0, 0⟩))
    (pixelPoint env transform (vertices.getD ((i + 1) % vertices.length) ⟨0, 0⟩))

/-- The claim's angle conversion `a * 3.14 / 180`, in float arithmetic. -/
def toRadians (env : Env) (a : ℚ) : ℚ := env.rnd (env.rnd (a * env.rnd (314 / 100)) / 180)

/-- The claim's point `P a` for an angle of `a` degrees: the transform applied to
`(radius * cos (a * 3.14 / 180), radius * sin (a * 3.14 / 180))`, times `pixelsPerMeter`. -/
def circlePixelPoint (env : Env) (transform : b2Transform) (radius a : ℚ) : ℚ × ℚ :=
  pixelPoint env transform
    ⟨env.rnd (env.rndDouble (radius * env.cos (toRadians env a))),
     env.rnd (env.rndDouble (radius * env.sin (toRadians env a)))⟩

/-- The value of `angle` when the `k`-th point of the circle is computed: `18 * k`
degrees, reset to 0 on reaching 360. -/
def loopAngle (k : Nat) : ℚ := ((18 * k % 360 : ℕ) : ℚ)

/-- The `k`-th chord of the circle loop, from the point at `loopAngle k` to the point
at `loopAngle (k + 1)`. -/
def chord (env : Env) (transform : b2Transform) (radius : ℚ) (k : Nat) : RenderCall :=
  segment (circlePixelPoint env transform radius (loopAngle k))
    (circlePixelPoint env transform radius (loopAngle (k + 1)))

/-- A rational with a 24-bit significand: the values of a binary32 float (the exponent
range is left unbounded). -/
def Binary32 (q : ℚ) : Prop :=
  ∃ m e : ℤ, |m| < 16777216 ∧ q = (m : ℚ) * (2 : ℚ) ^ e

/-- The two arithmetics in which the wall geometry is compared with the paddle: either the
quotient 10/30 is converted exactly (as in exact arithmetic), or every rounded value has a
24-bit significand and 10/30 is rounded to its binary32 neighbour 11184811 / 2^25. -/
def WallArithmetic (env : Env) : Prop :=
  toSim env 10 = 10 / pixelsPerMeter ∨
    ((∀ q : ℚ, Binary32 (env.rnd q)) ∧ toSim env 10 = 11184811 / 33554432)

/-- The unit in the last place of a 24-bit significand at the magnitude of `q`. -/
def ulp24 (q : ℚ) : ℚ := (2 : ℚ) ^ (Int.log 2 |q| - 23)

/-- Rounding toward plus infinity to a 24-bit significand: binary32 arithmetic in one of
its rounding modes, without exponent limits. -/
def roundUp24 (q : ℚ) : ℚ := if q = 0 then 0 else (⌈q / ulp24 q⌉ : ℚ) * ulp24 q

/-- Float arithmetic with 24-bit significands and a physics engine that moves every body
by its velocity times the time step. -/
def floatEnv : Env := { driftEnv with rnd := roundUp24 }

/-! ## Rounding lemmas -/

theorem FloatRounding.mono {rnd : ℚ → ℚ} (hr : FloatRounding rnd) {a b : ℚ} (h : a ≤ b) :
    rnd a ≤ rnd b := hr.1 h

theorem FloatRounding.idem {rnd : ℚ → ℚ} (hr : FloatRounding rnd) (q : ℚ) :
    rnd (rnd q) = rnd q := hr.2.1 q

theorem FloatRounding.nat {rnd : ℚ → ℚ} (hr : FloatRounding rnd) (n : ℕ)
    (h : n ≤ 16777216) : rnd (n : ℚ) = (n : ℚ) := by
  have := hr.2.2 (n : ℤ) (by rw [abs_of_nonneg (by positivity)]; exact_mod_cast h)
  simpa using this

theorem FloatRounding.ofNat {rnd : ℚ → ℚ} (hr : FloatRounding rnd) (n : ℕ) [n.AtLeastTwo]
    (h : n ≤ 16777216) : rnd (OfNat.ofNat n : ℚ) = (OfNat.ofNat n : ℚ) := by
  have := hr.nat n h
  simpa using this

theorem FloatRounding.zero {rnd : ℚ → ℚ} (hr : FloatRounding rnd) : rnd 0 = 0 := by
  simpa using hr.nat 0 (by norm_num)

theorem FloatRounding.one {rnd : ℚ → ℚ} (hr : FloatRounding rnd) : rnd 1 = 1 := by
  simpa using hr.nat 1 (by norm_num)

theorem FloatRounding.nonneg {rnd : ℚ → ℚ} (hr : FloatRounding rnd) {q : ℚ} (h : 0 ≤ q) :
    0 ≤ rnd q := by
  have := hr.mono h
  rwa [hr.zero] at this

theorem FloatRounding.lt_of_rnd_lt {rnd : ℚ → ℚ} (hr : FloatRounding rnd) {a b : ℚ}
    (h : rnd a < rnd b) : a < b := by
  by_contra hn
  exact absurd (hr.mono (not_lt.mp hn)) (not_le.mpr h)

theorem floatRounding_id : FloatRounding (id : ℚ → ℚ) :=
  ⟨fun _ _ h => h, fun _ => rfl, fun _ _ => rfl⟩

theorem floatRounding_exactEnv : FloatRounding exactEnv.rnd := floatRounding_id

theorem restingKinematicKept_exactEnv : RestingKinematicKept exactEnv :=
  ⟨rfl, fun _ _ _ _ _ h _ _ => h⟩

theorem restingKinematicKept_driftEnv : RestingKinematicKept driftEnv := by
  refine ⟨rfl, ?_⟩
  intro w t n id b hb _ hv
  have hmap : (driftEnv.b2World_Step w t n).bodies[id]? =
      (w.bodies[id]?).map (fun b : b2Body =>
        { b with position := ⟨b.position.x + b.linearVelocity.x * t,
                              b.position.y + b.linearVelocity.y * t⟩ }) := by
    simp [driftEnv]
  rw [hmap, hb]
  obtain ⟨ty, ⟨px, py⟩, rot, vel, fr, sh⟩ := b
  simp only at hv
  subst hv
  simp

/-! ## A rounding operator with 24-bit significands -/

theorem ulp24_pos (q : ℚ) : 0 < ulp24 q := zpow_pos (by norm_num) _

theorem two_zpow_eq (z : ℤ) : (2 : ℚ) ^ z = 8388608 * (2 : ℚ) ^ (z - 23) := by
  rw [zpow_sub₀ (by norm_num)]
  norm_num
  field_simp

theorem two_zpow_succ_eq (z : ℤ) : (2 : ℚ) ^ (z + 1) = 16777216 * (2 : ℚ) ^ (z - 23) := by
  rw [zpow_add₀ (by norm_num), two_zpow_eq z]
  ring

theorem ulp24_le_abs (q : ℚ) (hq : q ≠ 0) : 8388608 * ulp24 q ≤ |q| := by
  have h := Int.zpow_log_le_self (b := 2) (r := |q|) (by norm_num) (abs_pos.mpr hq)
  rw [ulp24, ← two_zpow_eq]
  exact_mod_cast h

theorem abs_lt_ulp24 (q : ℚ) : |q| < 16777216 * ulp24 q := by
  have h := Int.lt_zpow_succ_log_self (b := 2) (by norm_num) (|q|)
  rw [ulp24, ← two_zpow_succ_eq]
  exact_mod_cast h

theorem ulp24_eq (q : ℚ) (z : ℤ) (h1 : (2 : ℚ) ^ z ≤ |q|) (h2 : |q| < (2 : ℚ) ^ (z + 1)) :
    ulp24 q = (2 : ℚ) ^ (z - 23) := by
  have hq : 0 < |q| := lt_of_lt_of_le (zpow_pos (by norm_num) z) h1
  have ha : z ≤ Int.log 2 |q| :=
    (Int.zpow_le_iff_le_log (b := 2) (by norm_num) hq).mp (by exact_mod_cast h1)
  have hb : Int.log 2 |q| < z + 1 :=
    (Int.lt_zpow_iff_log_lt (b := 2) (by norm_num) hq).mp (by exact_mod_cast h2)
  have : Int.log 2 |q| = z := by omega
  rw [ulp24, this]

theorem le_roundUp24 (q : ℚ) : q ≤ roundUp24 q := by
  unfold roundUp24
  split_ifs with h
  · exact le_of_eq h
  · have hu := ulp24_pos q
    calc q = q / ulp24 q * ulp24 q := by field_simp
      _ ≤ (⌈q / ulp24 q⌉ : ℚ) * ulp24 q :=
          mul_le_mul_of_nonneg_right (Int.le_ceil _) (le_of_lt hu)

theorem roundUp24_le_of_pos (q : ℚ) (hq : 0 < q) : roundUp24 q ≤ 16777216 * ulp24 q := by
  have hu := ulp24_pos q
  have hlt := abs_lt_ulp24 q
  rw [abs_of_pos hq] at hlt
  rw [roundUp24, if_neg (ne_of_gt hq)]
  apply mul_le_mul_of_nonneg_right _ (le_of_lt hu)
  have : ⌈q / ulp24 q⌉ ≤ (16777216 : ℤ) := by
    rw [Int.ceil_le]
    rw [div_le_iff₀ hu]
    push_cast
    exact le_of_lt hlt
  exact_mod_cast this

theorem roundUp24_le_of_neg (q : ℚ) (hq : q < 0) : roundUp24 q ≤ -(8388608 * ulp24 q) := by
  have hu := ulp24_pos q
  have hle := ulp24_le_abs q (ne_of_lt hq)
  rw [abs_of_neg hq] at hle
  rw [roundUp24, if_neg (ne_of_lt hq)]
  have : ⌈q / ulp24 q⌉ ≤ (-8388608 : ℤ) := by
    rw [Int.ceil_le]
    rw [div_le_iff₀ hu]
    push_cast
    linarith
  have h2 : (⌈q / ulp24 q⌉ : ℚ) ≤ -8388608 := by exact_mod_cast this
  calc (⌈q / ulp24 q⌉ : ℚ) * ulp24 q ≤ -8388608 * ulp24 q :=
        mul_le_mul_of_nonneg_right h2 (le_of_lt hu)
    _ = -(8388608 * ulp24 q) := by ring

/-- Two magnitudes in increasing order have the same unit, or the unit at least doubles. -/
theorem ulp24_step (a b : ℚ) (ha : a ≠ 0) (hab : |a| ≤ |b|) :
    ulp24 a = ulp24 b ∨ 2 * ulp24 a ≤ ulp24 b := by
  have hlog := Int.log_mono_right (b := 2) (abs_pos.mpr ha) hab
  rcases eq_or_lt_of_le hlog with h | h
  · left
    rw [ulp24, ulp24, h]
  · right
    have h1 : Int.log 2 |a| - 23 + 1 ≤ Int.log 2 |b| - 23 := by omega
    have := zpow_le_zpow_right₀ (a := (2 : ℚ)) (by norm_num) h1
    rw [zpow_add₀ (by norm_num)] at this
    rw [ulp24, ulp24]
    linarith [this]

theorem roundUp24_mono : Monotone roundUp24 := by
  intro a b hab
  rcases lt_trichotomy a 0 with ha | ha | ha
  · -- a < 0
    have hRa := roundUp24_le_of_neg a ha
    have hua := ulp24_pos a
    rcases lt_or_le b 0 with hb | hb
    · have hba : |b| ≤ |a| := by rw [abs_of_neg ha, abs_of_neg hb]; linarith
      rcases ulp24_step b a (ne_of_lt hb) hba with h | h
      · rw [roundUp24, roundUp24, if_neg (ne_of_lt ha), if_neg (ne_of_lt hb), h]
        apply mul_le_mul_of_nonneg_right _ (le_of_lt hua)
        have : ⌈a / ulp24 a⌉ ≤ ⌈b / ulp24 a⌉ :=
          Int.ceil_mono (div_le_div_of_nonneg_right hab (le_of_lt hua))
        exact_mod_cast this
      · have hblt := abs_lt_ulp24 b
        rw [abs_of_neg hb] at hblt
        have hub := ulp24_pos b
        calc roundUp24 a ≤ -(8388608 * ulp24 a) := hRa
          _ ≤ -(16777216 * ulp24 b) := by linarith
          _ ≤ b := by linarith
          _ ≤ roundUp24 b := le_roundUp24 b
    · calc roundUp24 a ≤ -(8388608 * ulp24 a) := hRa
        _ ≤ 0 := by linarith
        _ ≤ b := hb
        _ ≤ roundUp24 b := le_roundUp24 b
  · subst ha
    calc roundUp24 0 = 0 := by simp [roundUp24]
      _ ≤ b := hab
      _ ≤ roundUp24 b := le_roundUp24 b
  · have hb : 0 < b := lt_of_lt_of_le ha hab
    have hab2 : |a| ≤ |b| := by rw [abs_of_pos ha, abs_of_pos hb]; exact hab
    have hub := ulp24_pos b
    rcases ulp24_step a b (ne_of_gt ha) hab2 with h | h
    · rw [roundUp24, roundUp24, if_neg (ne_of_gt ha), if_neg (ne_of_gt hb), h]
      apply mul_le_mul_of_nonneg_right _ (le_of_lt hub)
      have : ⌈a / ulp24 b⌉ ≤ ⌈b / ulp24 b⌉ :=
        Int.ceil_mono (div_le_div_of_nonneg_right hab (le_of_lt hub))
      exact_mod_cast this
    · have hble := ulp24_le_abs b (ne_of_gt hb)
      rw [abs_of_pos hb] at hble
      calc roundUp24 a ≤ 16777216 * ulp24 a := roundUp24_le_of_pos a ha
        _ ≤ 8388608 * ulp24 b := by linarith
        _ ≤ b := hble
        _ ≤ roundUp24 b := le_roundUp24 b

theorem roundUp24_fix (q : ℚ) (n : ℤ) (h : q = (n : ℚ) * ulp24 q) : roundUp24 q = q := by
  unfold roundUp24
  split_ifs with h0
  · exact h0.symm
  · have hu := ulp24_pos q
    have : q / ulp24 q = (n : ℚ) := by
      rw [div_eq_iff (ne_of_gt hu)]
      exact h
    rw [this, Int.ceil_intCast]
    exact h.symm

/-- The unit of a value between `2^23 u` and `2^24 u`, for a unit `u`, is `u`. -/
theorem ulp24_of_bounds (r : ℚ) (z : ℤ) (h1 : 8388608 * (2 : ℚ) ^ (z - 23) ≤ |r|)
    (h2 : |r| < 16777216 * (2 : ℚ) ^ (z - 23)) : ulp24 r = (2 : ℚ) ^ (z - 23) := by
  apply ulp24_eq
  · rw [two_zpow_eq]; exact h1
  · rw [two_zpow_succ_eq]; exact h2

theorem roundUp24_grid (q : ℚ) :
    ∃ n : ℤ, roundUp24 q = (n : ℚ) * ulp24 (roundUp24 q) := by
  rcases lt_trichotomy q 0 with hq | hq | hq
  · -- negative: the result stays in the binade of `q`
    have hu := ulp24_pos q
    have hR := roundUp24_le_of_neg q hq
    have hle := le_roundUp24 q
    have hlt := abs_lt_ulp24 q
    rw [abs_of_neg hq] at hlt
    have hneg : roundUp24 q < 0 := by linarith
    have hul : ulp24 (roundUp24 q) = ulp24 q := by
      rw [ulp24]
      apply ulp24_of_bounds
      · rw [abs_of_neg hneg, ← ulp24]; linarith
      · rw [abs_of_neg hneg, ← ulp24]; linarith
    refine ⟨⌈q / ulp24 q⌉, ?_⟩
    rw [hul, roundUp24, if_neg (ne_of_lt hq)]
  · subst hq
    exact ⟨0, by simp [roundUp24]⟩
  · have hu := ulp24_pos q
    have hR := roundUp24_le_of_pos q hq
    have hle := le_roundUp24 q
    have hge := ulp24_le_abs q (ne_of_gt hq)
    rw [abs_of_pos hq] at hge
    have hpos : 0 < roundUp24 q := by linarith
    rcases eq_or_lt_of_le hR with heq | hlt
    · -- the result is the next power of two
      have hul : ulp24 (roundUp24 q) = 2 * ulp24 q := by
        have h := ulp24_of_bounds (roundUp24 q) (Int.log 2 |q| + 1)
          (by rw [abs_of_pos hpos, heq, show Int.log 2 |q| + 1 - 23 = Int.log 2 |q| - 23 + 1
                by ring, zpow_add₀ (by norm_num), ← ulp24]; linarith)
          (by rw [abs_of_pos hpos, heq, show Int.log 2 |q| + 1 - 23 = Int.log 2 |q| - 23 + 1
                by ring, zpow_add₀ (by norm_num), ← ulp24]; linarith)
        rw [h, show Int.log 2 |q| + 1 - 23 = Int.log 2 |q| - 23 + 1 by ring,
          zpow_add₀ (by norm_num), ← ulp24]
        ring
      refine ⟨8388608, ?_⟩
      rw [hul, heq]
      push_cast
      ring
    · have hul : ulp24 (roundUp24 q) = ulp24 q := by
        rw [ulp24]
        apply ulp24_of_bounds
        · rw [abs_of_pos hpos, ← ulp24]; linarith
        · rw [abs_of_pos hpos, ← ulp24]; linarith
      refine ⟨⌈q / ulp24 q⌉, ?_⟩
      rw [hul, roundUp24, if_neg (ne_of_gt hq)]

theorem roundUp24_idem (q : ℚ) : roundUp24 (roundUp24 q) = roundUp24 q := by
  obtain ⟨n, hn⟩ := roundUp24_grid q
  exact roundUp24_fix _ n hn

theorem roundUp24_int (n : ℤ) (hn : |n| ≤ 16777216) : roundUp24 (n : ℚ) = (n : ℚ) := by
  rcases eq_or_ne n 0 with h0 | h0
  · subst h0
    simp [roundUp24]
  · have hq : (n : ℚ) ≠ 0 := by exact_mod_cast h0
    have hge := ulp24_le_abs (n : ℚ) hq
    have habs : |(n : ℚ)| ≤ 16777216 := by exact_mod_cast hn
    have hu2 : ulp24 (n : ℚ) ≤ 2 := by linarith
    -- the exponent of the unit is at most 1
    have hd : Int.log 2 |(n : ℚ)| - 23 ≤ 1 := by
      by_contra hcon
      have h2 : (2 : ℤ) ≤ Int.log 2 |(n : ℚ)| - 23 := by omega
      have := zpow_le_zpow_right₀ (a := (2 : ℚ)) (by norm_num) h2
      rw [← ulp24] at this
      norm_num at this
      linarith
    rcases eq_or_lt_of_le hd with h1 | h1
    · -- unit 2: the integer is plus or minus 2^24
      have hu : ulp24 (n : ℚ) = 2 := by rw [ulp24, h1]; norm_num
      rw [hu] at hge
      have hn2 : (16777216 : ℚ) ≤ |(n : ℚ)| := by linarith
      have hn3 : (16777216 : ℤ) ≤ |n| := by exact_mod_cast hn2
      have hn4 : |n| = 16777216 := le_antisymm hn hn3
      rcases abs_eq (by norm_num : (0 : ℤ) ≤ 16777216) |>.mp hn4 with h | h
      · apply roundUp24_fix _ 8388608
        rw [hu, h]
        norm_num
      · apply roundUp24_fix _ (-8388608)
        rw [hu, h]
        norm_num
    · have hd0 : 0 ≤ -(Int.log 2 |(n : ℚ)| - 23) := by omega
      apply roundUp24_fix _ (n * 2 ^ (-(Int.log 2 |(n : ℚ)| - 23)).toNat)
      have hone : (2 : ℚ) ^ ((-(Int.log 2 |(n : ℚ)| - 23)).toNat : ℤ) * ulp24 (n : ℚ) = 1 := by
        rw [ulp24, ← zpow_add₀ (by norm_num), Int.toNat_of_nonneg hd0]
        simp
      rw [zpow_natCast] at hone
      push_cast
      rw [mul_assoc, hone, mul_one]

theorem roundUp24_binary32 (q : ℚ) : Binary32 (roundUp24 q) := by
  rcases lt_trichotomy q 0 with hq | hq | hq
  · have hu := ulp24_pos q
    have hlt := abs_lt_ulp24 q
    rw [abs_of_neg hq] at hlt
    have h1 : (-16777216 : ℤ) < ⌈q / ulp24 q⌉ := by
      rw [Int.lt_ceil, lt_div_iff₀ hu]
      push_cast
      linarith
    have h2 : ⌈q / ulp24 q⌉ ≤ (0 : ℤ) := by
      rw [Int.ceil_le, div_le_iff₀ hu]
      push_cast
      linarith
    refine ⟨⌈q / ulp24 q⌉, Int.log 2 |q| - 23, ?_, ?_⟩
    · rw [abs_lt]; constructor <;> omega
    · rw [roundUp24, if_neg (ne_of_lt hq), ulp24]
  · subst hq
    exact ⟨0, 0, by norm_num, by simp [roundUp24]⟩
  · have hu := ulp24_pos q
    have hR := roundUp24_le_of_pos q hq
    have h0 : (0 : ℤ) ≤ ⌈q / ulp24 q⌉ := by
      have : (0 : ℤ) < ⌈q / ulp24 q⌉ := by
        rw [Int.lt_ceil]
        push_cast
        exact div_pos hq hu
      omega
    rcases eq_or_lt_of_le hR with heq | hlt
    · refine ⟨1, Int.log 2 |q| + 1, by norm_num, ?_⟩
      rw [heq, two_zpow_succ_eq, ← ulp24]
      push_cast
      ring
    · refine ⟨⌈q / ulp24 q⌉, Int.log 2 |q| - 23, ?_, ?_⟩
      · rw [roundUp24, if_neg (ne_of_gt hq)] at hlt
        have h3 : (⌈q / ulp24 q⌉ : ℚ) < 16777216 := lt_of_mul_lt_mul_right hlt (le_of_lt hu)
        have h4 : ⌈q / ulp24 q⌉ < (16777216 : ℤ) := by exact_mod_cast h3
        rw [abs_lt]; constructor <;> omega
      · rw [roundUp24, if_neg (ne_of_gt hq), ulp24]

theorem roundUp24_third : roundUp24 (10 / 30) = 11184811 / 33554432 := by
  have hu : ulp24 (10 / 30) = (2 : ℚ) ^ ((-2 : ℤ) - 23) := by
    apply ulp24_eq <;> norm_num [abs_of_pos]
  have hv : (2 : ℚ) ^ ((-2 : ℤ) - 23) = 1 / 33554432 := by norm_num
  rw [roundUp24, hu, hv, if_neg (by norm_num)]
  have hc : ⌈(10 / 30 : ℚ) / (1 / 33554432)⌉ = 11184811 := by
    rw [Int.ceil_eq_iff]
    constructor <;> norm_num
  rw [hc]
  norm_num

theorem floatRounding_roundUp24 : FloatRounding roundUp24 :=
  ⟨roundUp24_mono, roundUp24_idem, roundUp24_int⟩

theorem floatRounding_floatEnv : FloatRounding floatEnv.rnd := floatRounding_roundUp24

theorem restingKinematicKept_floatEnv : RestingKinematicKept floatEnv :=
  restingKinematicKept_driftEnv

theorem wallArithmetic_floatEnv : WallArithmetic floatEnv :=
  Or.inr ⟨roundUp24_binary32, roundUp24_third⟩

/-! ## The world built by `initPhysicsWorld` -/

theorem initPhysicsWorld_eq (env : Env) :
    initPhysicsWorld env =
      { worldId :=
          { gravity := ⟨0, 0⟩, restitutionThreshold := env.rnd (1 / 10),
            bodies :=
              [builtBox env b2BodyType.b2_staticBody 10 150 10 150
                 env.b2DefaultBodyDef.rotation none,
               builtBox env b2BodyType.b2_staticBody 390 150 10 150
                 env.b2DefaultBodyDef.rotation none,
               builtBox env b2BodyType.b2_staticBody 200 10 180 10
                 env.b2DefaultBodyDef.rotation none,
               builtBox env b2BodyType.b2_staticBody 200 290 180 10
                 env.b2DefaultBodyDef.rotation none,
               builtBox env b2BodyType.b2_kinematicBody 200 265 30 5
                 env.b2DefaultBodyDef.rotation (some "racket"),
               builtBall env,
               builtBox env b2BodyType.b2_staticBody 206 120 50 5
                 (env.b2MakeRot (env.rnd (env.rnd (85 * env.rnd (314 / 100)) / 180)))
                 (some "block")],
            contactEvents := ⟨0⟩ },
        racketBodyId := 4, ballBodyId := 5 } := by
  simp [initPhysicsWorld, createLeftWall, createRightWall, createTopWall, createBottomWall,
    createRacket, createBall, createBlock0, b2CreateWorld, b2World_SetRestitutionThreshold,
    b2CreateBody, b2CreatePolygonShape, b2CreateCircleShape, createShape, updateBody,
    b2Shape_SetUserData, b2Body_SetLinearVelocity, b2Body_SetFixedRotation, b2MakeBox,
    builtBox, builtBall]

/-! ## World-build scenario -/

/-- C6. The world built by `initPhysicsWorld` has exactly 7 bodies, in creation order four
static walls, the kinematic paddle (whose handle is stored in `racketBodyId`), the dynamic
ball (stored in `ballBodyId`) and the static block, so 5 static, 1 kinematic and 1 dynamic
body; each body has exactly one shape and every shape has friction 0; the ball is at
(200/30, 250/30) in float arithmetic with linear velocity (0, -2.9f), fixed rotation, and
a circle of radius 5/30 with restitution 1, contact events enabled and tag "ball"; the
paddle shape is tagged "racket" and the block shape "block".  In exact arithmetic the
ball data are the rationals (20/3, 25/3), (0, -29/10) and 1/6. -/
theorem world_build_scenario (env : Env) :
    ((initPhysicsWorld env).worldId.bodies.length = 7 ∧
     (initPhysicsWorld env).worldId.bodies.map (fun b => b.type) =
       [b2BodyType.b2_staticBody, b2BodyType.b2_staticBody, b2BodyType.b2_staticBody,
        b2BodyType.b2_staticBody, b2BodyType.b2_kinematicBody, b2BodyType.b2_dynamicBody,
        b2BodyType.b2_staticBody] ∧
     (initPhysicsWorld env).worldId.bodies.countP
       (fun b => b.type = b2BodyType.b2_staticBody) = 5 ∧
     (initPhysicsWorld env).worldId.bodies.countP
       (fun b => b.type = b2BodyType.b2_kinematicBody) = 1 ∧
     (initPhysicsWorld env).worldId.bodies.countP
       (fun b => b.type = b2BodyType.b2_dynamicBody) = 1 ∧
     (initPhysicsWorld env).racketBodyId = 4 ∧ (initPhysicsWorld env).ballBodyId = 5) ∧
    ((initPhysicsWorld env).worldId.bodies.map (fun b => b.shapes.length) =
       [1, 1, 1, 1, 1, 1, 1] ∧
     (initPhysicsWorld env).worldId.bodies.map (fun b => b.shapes.map (fun s => s.friction)) =
       [[0], [0], [0], [0], [0], [0], [0]] ∧
     (initPhysicsWorld env).worldId.bodies.map (fun b => b.shapes.map (fun s => s.userData)) =
       [[none], [none], [none], [none], [some "racket"], [some "ball"], [some "block"]]) ∧
    (∃ ball : b2Body,
      (initPhysicsWorld env).worldId.bodies[(initPhysicsWorld env).ballBodyId]? = some ball ∧
      ball.type = b2BodyType.b2_dynamicBody ∧
      ball.position = ⟨env.rnd (200 / 30), env.rnd (250 / 30)⟩ ∧
      ball.linearVelocity = ⟨0, -(env.rnd (29 / 10))⟩ ∧
      ball.fixedRotation = true ∧
      ball.shapes = [{ geometry := Geometry.circle (env.rnd (5 / 30)), friction := 0,
                       restitution := 1, enableContactEvents := true,
                       userData := some "ball" }]) ∧
    (b2Body_GetPosition (initPhysicsWorld exactEnv).worldId
        (initPhysicsWorld exactEnv).ballBodyId = ⟨20 / 3, 25 / 3⟩ ∧
     ((initPhysicsWorld exactEnv).worldId.bodies.map (fun b => b.linearVelocity))[5]? =
        some ⟨0, -(29 / 10)⟩ ∧
     ((initPhysicsWorld exactEnv).worldId.bodies.map
        (fun b => b.shapes.map (fun s => s.geometry)))[5]? =
        some [Geometry.circle (1 / 6)]) := by
  refine ⟨?_, ?_, ?_, ?_⟩
  · rw [initPhysicsWorld_eq]
    simp [builtBox, builtBall, List.countP_cons]
  · rw [initPhysicsWorld_eq]
    simp [builtBox, builtBall]
  · rw [initPhysicsWorld_eq]
    refine ⟨builtBall env, by simp, ?_⟩
    simp [builtBall, toSim, pixelsPerMeter]
  · rw [initPhysicsWorld_eq]
    simp [builtBox, builtBall, toSim, pixelsPerMeter, b2Body_GetPosition, exactEnv]
    norm_num

/-! ## Held-key tracking -/

theorem runEvents_cons (app : App) (e : SDL_Event) (es : List SDL_Event) :
    runEvents app (e :: es) = runEvents (SDL_AppEvent app e).1 es := rfl

theorem lastKeyState_cons (sc : SDL_Scancode) (init : Bool) (e : SDL_Event)
    (es : List SDL_Event) :
    lastKeyState sc init (e :: es) =
      lastKeyState sc
        (if e.scancode = sc ∧ e.type = SDL_EventType.SDL_EVENT_KEY_DOWN then true
         else if e.scancode = sc ∧ e.type = SDL_EventType.SDL_EVENT_KEY_UP then false
         else init) es := rfl

theorem SDL_AppEvent_keyLeft (app : App) (e : SDL_Event) :
    (SDL_AppEvent app e).1.keyLeft =
      (if e.scancode = SDL_Scancode.SDL_SCANCODE_LEFT ∧
          e.type = SDL_EventType.SDL_EVENT_KEY_DOWN then true
       else if e.scancode = SDL_Scancode.SDL_SCANCODE_LEFT ∧
          e.type = SDL_EventType.SDL_EVENT_KEY_UP then false
       else app.keyLeft) := by
  obtain ⟨t, sc⟩ := e
  cases t <;> cases sc <;> simp [SDL_AppEvent]

theorem SDL_AppEvent_keyRight (app : App) (e : SDL_Event) :
    (SDL_AppEvent app e).1.keyRight =
      (if e.scancode = SDL_Scancode.SDL_SCANCODE_RIGHT ∧
          e.type = SDL_EventType.SDL_EVENT_KEY_DOWN then true
       else if e.scancode = SDL_Scancode.SDL_SCANCODE_RIGHT ∧
          e.type = SDL_EventType.SDL_EVENT_KEY_UP then false
       else app.keyRight) := by
  obtain ⟨t, sc⟩ := e
  cases t <;> cases sc <;> simp [SDL_AppEvent]

theorem runEvents_keys (events : List SDL_Event) : ∀ app : App,
    (runEvents app events).keyLeft =
        lastKeyState SDL_Scancode.SDL_SCANCODE_LEFT app.keyLeft events ∧
    (runEvents app events).keyRight =
        lastKeyState SDL_Scancode.SDL_SCANCODE_RIGHT app.keyRight events := by
  induction events with
  | nil => intro app; exact ⟨rfl, rfl⟩
  | cons e es ih =>
    intro app
    rw [runEvents_cons, lastKeyState_cons, lastKeyState_cons,
      ← SDL_AppEvent_keyLeft, ← SDL_AppEvent_keyRight]
    exact ih _

/-- C4. `SDL_AppEvent` tracks the held keys: a key-down with the LEFT scancode sets
`keyLeft` and changes nothing else, a key-down with RIGHT sets `keyRight` and changes
nothing else, a key-up with LEFT or RIGHT clears exactly the matching flag, and every other
event (quit, other types, other scancodes) leaves all variables unchanged; after any event
sequence each flag tells whether the last key-down or key-up event of its own key was a
key-down (the flag's initial value when there was none); and the handler returns
`SDL_APP_SUCCESS` exactly for the quit event and `SDL_APP_CONTINUE` otherwise. -/
theorem held_key_tracking (app : App) (e : SDL_Event) (events : List SDL_Event) :
    (SDL_AppEvent app ⟨SDL_EventType.SDL_EVENT_KEY_DOWN, SDL_Scancode.SDL_SCANCODE_LEFT⟩).1
        = { app with keyLeft := true } ∧
    (SDL_AppEvent app ⟨SDL_EventType.SDL_EVENT_KEY_DOWN, SDL_Scancode.SDL_SCANCODE_RIGHT⟩).1
        = { app with keyRight := true } ∧
    (SDL_AppEvent app ⟨SDL_EventType.SDL_EVENT_KEY_UP, SDL_Scancode.SDL_SCANCODE_LEFT⟩).1
        = { app with keyLeft := false } ∧
    (SDL_AppEvent app ⟨SDL_EventType.SDL_EVENT_KEY_UP, SDL_Scancode.SDL_SCANCODE_RIGHT⟩).1
        = { app with keyRight := false } ∧
    (¬ ((e.type = SDL_EventType.SDL_EVENT_KEY_DOWN ∨ e.type = SDL_EventType.SDL_EVENT_KEY_UP) ∧
        (e.scancode = SDL_Scancode.SDL_SCANCODE_LEFT ∨
         e.scancode = SDL_Scancode.SDL_SCANCODE_RIGHT)) →
      (SDL_AppEvent app e).1 = app) ∧
    ((runEvents app events).keyLeft =
        lastKeyState SDL_Scancode.SDL_SCANCODE_LEFT app.keyLeft events ∧
     (runEvents app events).keyRight =
        lastKeyState SDL_Scancode.SDL_SCANCODE_RIGHT app.keyRight events) ∧
    ((SDL_AppEvent app e).2 = SDL_AppResult.SDL_APP_SUCCESS ↔
        e.type = SDL_EventType.SDL_EVENT_QUIT) ∧
    ((SDL_AppEvent app e).2 = SDL_AppResult.SDL_APP_CONTINUE ↔
        e.type ≠ SDL_EventType.SDL_EVENT_QUIT) := by
  refine ⟨rfl, rfl, rfl, rfl, ?_, runEvents_keys events app, ?_, ?_⟩
  · obtain ⟨t, sc⟩ := e
    cases t <;> cases sc <;> simp [SDL_AppEvent]
  · obtain ⟨t, sc⟩ := e
    cases t <;> cases sc <;> simp [SDL_AppEvent]
  · obtain ⟨t, sc⟩ := e
    cases t <;> cases sc <;> simp [SDL_AppEvent]

/-- A state with the right key held, and a quit event followed by key events. -/
theorem held_key_tracking_witness :
    (SDL_AppEvent ⟨b2CreateWorld ⟨⟨0, 0⟩, 0⟩, 0, 0, false, true, 0⟩
        ⟨SDL_EventType.SDL_EVENT_QUIT, SDL_Scancode.SDL_SCANCODE_LEFT⟩).1 =
      ⟨b2CreateWorld ⟨⟨0, 0⟩, 0⟩, 0, 0, false, true, 0⟩ :=
  (held_key_tracking ⟨b2CreateWorld ⟨⟨0, 0⟩, 0⟩, 0, 0, false, true, 0⟩
      ⟨SDL_EventType.SDL_EVENT_QUIT, SDL_Scancode.SDL_SCANCODE_LEFT⟩ []).2.2.2.2.1
    (by decide)

/-! ## Collision notification -/

/-- C5 as stated fails: with an engine that reports two begin-events in a step, one
iteration prints a single "collision" line. -/
theorem collision_count_counterexample :
    (b2World_GetContactEvents
        (SDL_AppIterate twoContactsEnv (startApp twoContactsEnv) 16).app.worldId).beginCount
      = 2 ∧
    (SDL_AppIterate twoContactsEnv (startApp twoContactsEnv) 16).stdout = ["collision\n"] ∧
    collisionLines (SDL_AppIterate twoContactsEnv (startApp twoContactsEnv) 16).stdout = 1 := by
  simp [SDL_AppIterate, twoContactsEnv, b2World_GetContactEvents, collisionLines]

/-- C5, amended. In every iteration of `SDL_AppIterate` exactly one "collision" line is
printed when the physics step of that iteration returned at least one contact-begin event,
and nothing is printed otherwise; the number of lines is `min beginCount 1` for a
non-negative count. -/
theorem collision_line_iff_begin (env : Env) (app : App) (ticks : Nat) :
    (SDL_AppIterate env app ticks).stdout =
      (if 0 < (b2World_GetContactEvents (SDL_AppIterate env app ticks).app.worldId).beginCount
       then ["collision\n"] else []) ∧
    (collisionLines (SDL_AppIterate env app ticks).stdout : Int) =
      max 0 (min (b2World_GetContactEvents
        (SDL_AppIterate env app ticks).app.worldId).beginCount 1) := by
  constructor
  · simp [SDL_AppIterate]
  · simp only [SDL_AppIterate, collisionLines, gt_iff_lt]
    split_ifs with h
    · simp
      omega
    · simp
      omega

/-! ## The paddle update -/

theorem lt_length_of_getElem? {α : Type} {l : List α} {i : Nat} {a : α}
    (h : l[i]? = some a) : i < l.length := by
  by_contra hn
  rw [List.getElem?_eq_none (not_lt.mp hn)] at h
  exact absurd h (by simp)

theorem updateBody_get (w : b2World) (id : b2BodyId) (f : b2Body → b2Body) (b : b2Body)
    (hb : w.bodies[id]? = some b) : (updateBody w id f).bodies[id]? = some (f b) := by
  have hlt := lt_length_of_getElem? hb
  simp [updateBody, hb, List.getElem?_set, hlt]

theorem getPosition_updateBody (w : b2World) (id : b2BodyId) (f : b2Body → b2Body)
    (b : b2Body) (hb : w.bodies[id]? = some b) :
    b2Body_GetPosition (updateBody w id f) id = (f b).position := by
  simp only [b2Body_GetPosition, updateBody_get w id f b hb]

theorem tickDiff_nonneg (c l : Nat) : 0 ≤ tickDiff c l :=
  Int.emod_nonneg _ (by norm_num)

theorem deltaTime_nonneg (env : Env) (hr : FloatRounding env.rnd) (c l : Nat) :
    0 ≤ deltaTime env c l := by
  unfold deltaTime
  apply hr.nonneg
  apply div_nonneg _ (by norm_num)
  apply hr.nonneg
  exact_mod_cast tickDiff_nonneg c l

theorem racketControl_eq (env : Env) (app : App) (dt : ℚ) (b : b2Body)
    (hb : app.worldId.bodies[app.racketBodyId]? = some b) :
    racketControl env app dt =
      if app.keyLeft then
        if 50 < env.rnd (env.rnd (b.position.x - env.rnd (racketSpeed * dt)) * pixelsPerMeter)
        then updateBody app.worldId app.racketBodyId
          (fun _ => movedTo env b (env.rnd (b.position.x - env.rnd (racketSpeed * dt))))
        else app.worldId
      else if app.keyRight then
        if env.rnd (env.rnd (b.position.x + env.rnd (racketSpeed * dt)) * pixelsPerMeter) < 350
        then updateBody app.worldId app.racketBodyId
          (fun _ => movedTo env b (env.rnd (b.position.x + env.rnd (racketSpeed * dt))))
        else app.worldId
      else app.worldId := by
  simp only [racketControl, b2Body_GetPosition, b2Body_SetTransform, updateBody, hb, movedTo,
    gt_iff_lt]

theorem left_candidate_le (env : Env) (hr : FloatRounding env.rnd) (x dt : ℚ)
    (hx : env.rnd x = x) (hdt : 0 ≤ dt) :
    env.rnd (x - env.rnd (racketSpeed * dt)) ≤ x := by
  have h5 : 0 ≤ env.rnd (racketSpeed * dt) :=
    hr.nonneg (mul_nonneg (by norm_num [racketSpeed]) hdt)
  calc env.rnd (x - env.rnd (racketSpeed * dt)) ≤ env.rnd x := hr.mono (by linarith)
    _ = x := hx

theorem right_candidate_ge (env : Env) (hr : FloatRounding env.rnd) (x dt : ℚ)
    (hx : env.rnd x = x) (hdt : 0 ≤ dt) :
    x ≤ env.rnd (x + env.rnd (racketSpeed * dt)) := by
  have h5 : 0 ≤ env.rnd (racketSpeed * dt) :=
    hr.nonneg (mul_nonneg (by norm_num [racketSpeed]) hdt)
  calc x = env.rnd x := hx.symm
    _ ≤ env.rnd (x + env.rnd (racketSpeed * dt)) := hr.mono (by linarith)

theorem pixel_mono (env : Env) (hr : FloatRounding env.rnd) {a b : ℚ} (h : a ≤ b) :
    env.rnd (a * pixelsPerMeter) ≤ env.rnd (b * pixelsPerMeter) :=
  hr.mono (mul_le_mul_of_nonneg_right h (by norm_num [pixelsPerMeter]))

/-- The state of the racket body after the paddle update, in a state that satisfies the
paddle invariant: the candidate when a key is held and the candidate passes the two-sided
bound, the old body otherwise. -/
theorem racketControl_body (env : Env) (hr : FloatRounding env.rnd) (app : App) (dt : ℚ)
    (hdt : 0 ≤ dt) (b : b2Body)
    (hb : app.worldId.bodies[app.racketBodyId]? = some b)
    (hx : env.rnd b.position.x = b.position.x)
    (hlo : 50 < env.rnd (b.position.x * pixelsPerMeter))
    (hhi : env.rnd (b.position.x * pixelsPerMeter) < 350) :
    (∀ c, candidateX env app.keyLeft app.keyRight b.position.x dt = some c →
      50 < env.rnd (c * pixelsPerMeter) → env.rnd (c * pixelsPerMeter) < 350 →
      (racketControl env app dt).bodies[app.racketBodyId]? = some (movedTo env b c)) ∧
    (∀ c, candidateX env app.keyLeft app.keyRight b.position.x dt = some c →
      ¬ (50 < env.rnd (c * pixelsPerMeter) ∧ env.rnd (c * pixelsPerMeter) < 350) →
      racketControl env app dt = app.worldId ∧ b.position.x ≠ c) ∧
    (candidateX env app.keyLeft app.keyRight b.position.x dt = none →
      racketControl env app dt = app.worldId) := by
  rw [racketControl_eq env app dt b hb]
  unfold candidateX
  have hL := left_candidate_le env hr b.position.x dt hx hdt
  have hR := right_candidate_ge env hr b.position.x dt hx hdt
  have hLp := pixel_mono env hr hL
  have hRp := pixel_mono env hr hR
  by_cases hkl : app.keyLeft = true
  · simp only [hkl, if_true]
    refine ⟨?_, ?_, ?_⟩
    · intro c hc h1 _
      simp only [Option.some.injEq] at hc
      subst hc
      rw [if_pos h1]
      exact updateBody_get _ _ _ b hb
    · intro c hc hn
      simp only [Option.some.injEq] at hc
      subst hc
      have h1 : ¬ 50 < env.rnd
          (env.rnd (b.position.x - env.rnd (racketSpeed * dt)) * pixelsPerMeter) := by
        intro h
        exact hn ⟨h, lt_of_le_of_lt hLp hhi⟩
      rw [if_neg h1]
      refine ⟨rfl, ?_⟩
      intro heq
      rw [← heq] at h1
      exact h1 hlo
    · intro h
      exact absurd h (by simp)
  · have hkl2 : app.keyLeft = false := by simpa using hkl
    simp only [hkl2, Bool.false_eq_true, if_false]
    by_cases hkr : app.keyRight = true
    · simp only [hkr, if_true]
      refine ⟨?_, ?_, ?_⟩
      · intro c hc _ h2
        simp only [Option.some.injEq] at hc
        subst hc
        rw [if_pos h2]
        exact updateBody_get _ _ _ b hb
      · intro c hc hn
        simp only [Option.some.injEq] at hc
        subst hc
        have h1 : ¬ env.rnd
            (env.rnd (b.position.x + env.rnd (racketSpeed * dt)) * pixelsPerMeter) < 350 := by
          intro h
          exact hn ⟨lt_of_lt_of_le hlo hRp, h⟩
        rw [if_neg h1]
        refine ⟨rfl, ?_⟩
        intro heq
        rw [← heq] at h1
        exact h1 hhi
      · intro h
        exact absurd h (by simp)
    · have hkr2 : app.keyRight = false := by simpa using hkr
      simp only [hkr2, Bool.false_eq_true, if_false]
      refine ⟨?_, ?_, ?_⟩
      · intro c hc
        exact absurd hc (by simp)
      · intro c hc
        exact absurd hc (by simp)
      · intro _
        trivial

theorem toSim_200_bounds (env : Env) (hr : FloatRounding env.rnd) :
    6 ≤ toSim env 200 ∧ toSim env 200 ≤ 7 := by
  have h6 := hr.ofNat 6 (by norm_num)
  have h7 := hr.ofNat 7 (by norm_num)
  constructor
  · calc (6 : ℚ) = env.rnd 6 := h6.symm
      _ ≤ toSim env 200 := hr.mono (by norm_num [pixelsPerMeter])
  · calc toSim env 200 ≤ env.rnd 7 := hr.mono (by norm_num [pixelsPerMeter])
      _ = 7 := h7

theorem startApp_racket (env : Env) :
    (startApp env).worldId.bodies[(startApp env).racketBodyId]? =
      some (builtBox env b2BodyType.b2_kinematicBody 200 265 30 5
        env.b2DefaultBodyDef.rotation (some "racket")) := by
  simp [startApp, initPhysicsWorld_eq]

theorem start_pixel_bounds (env : Env) (hr : FloatRounding env.rnd) :
    50 < env.rnd (toSim env 200 * pixelsPerMeter) ∧
    env.rnd (toSim env 200 * pixelsPerMeter) < 350 := by
  obtain ⟨h6, h7⟩ := toSim_200_bounds env hr
  have h180 := hr.ofNat 180 (by norm_num)
  have h210 := hr.ofNat 210 (by norm_num)
  constructor
  · calc (50 : ℚ) < 180 := by norm_num
      _ = env.rnd 180 := h180.symm
      _ ≤ env.rnd (toSim env 200 * pixelsPerMeter) :=
          hr.mono (by simp only [pixelsPerMeter]; linarith)
  · calc env.rnd (toSim env 200 * pixelsPerMeter) ≤ env.rnd 210 :=
          hr.mono (by simp only [pixelsPerMeter]; linarith)
      _ = 210 := h210
      _ < 350 := by norm_num

theorem startApp_paddleInv (env : Env) (hr : FloatRounding env.rnd)
    (hrest : env.b2DefaultBodyDef.linearVelocity = ⟨0, 0⟩) :
    PaddleInv env (startApp env) :=
  ⟨_, startApp_racket env, ⟨rfl, hrest⟩, hr.idem _, (start_pixel_bounds env hr).1,
    (start_pixel_bounds env hr).2⟩

/-- The paddle update keeps the paddle invariant. -/
theorem racketControl_paddleInv (env : Env) (hr : FloatRounding env.rnd) (app : App) (dt : ℚ)
    (hdt : 0 ≤ dt) (h : PaddleInv env app) :
    PaddleInv env { app with worldId := racketControl env app dt } := by
  obtain ⟨b, hb, hkin, hx, hlo, hhi⟩ := h
  obtain ⟨hacc, hrej, hnone⟩ := racketControl_body env hr app dt hdt b hb hx hlo hhi
  cases hc : candidateX env app.keyLeft app.keyRight b.position.x dt with
  | none =>
    rw [hnone hc]
    exact ⟨b, hb, hkin, hx, hlo, hhi⟩
  | some c =>
    by_cases hin : 50 < env.rnd (c * pixelsPerMeter) ∧ env.rnd (c * pixelsPerMeter) < 350
    · refine ⟨movedTo env b c, hacc c hc hin.1 hin.2, hkin, ?_, hin.1, hin.2⟩
      have hcr : env.rnd c = c := by
        unfold candidateX at hc
        split_ifs at hc <;> simp only [Option.some.injEq] at hc <;> subst hc <;>
          exact hr.idem _
      exact hcr
    · rw [(hrej c hc hin).1]
      exact ⟨b, hb, hkin, hx, hlo, hhi⟩

/-- One frame keeps the paddle invariant when the physics step does not move the paddle. -/
theorem iterate_paddleInv (env : Env) (hr : FloatRounding env.rnd) (app : App) (ticks : Nat)
    (hstep : RestingKinematicKept env) (h : PaddleInv env app) :
    PaddleInv env (SDL_AppIterate env app ticks).app := by
  have hdt := deltaTime_nonneg env hr (ticks % 4294967296) app.lastTickTime
  obtain ⟨b, hb, hkin, hx, hlo, hhi⟩ :=
    racketControl_paddleInv env hr { app with lastTickTime := ticks % 4294967296 } _ hdt h
  have hb2 := hstep.2 _ (env.rnd (env.rndDouble (16 / 1000))) 5 _ b hb hkin.1 hkin.2
  exact ⟨b, by simpa [SDL_AppIterate] using hb2, hkin, hx, hlo, hhi⟩

theorem runFrames_inv (env : Env) (hr : FloatRounding env.rnd) (frames : List Frame) :
    RestingKinematicKept env → ∀ app : App, PaddleInv env app →
      (runFrames env app frames).racketBodyId = app.racketBodyId ∧
      PaddleInv env (runFrames env app frames) := by
  intro hstep
  induction frames with
  | nil => intro app h; exact ⟨rfl, h⟩
  | cons f fs ih =>
    intro app h
    have h1 : PaddleInv env
        (SDL_AppIterate env { app with keyLeft := f.keyLeft, keyRight := f.keyRight }
          f.ticks).app :=
      iterate_paddleInv env hr _ f.ticks hstep h
    exact ih (SDL_AppIterate env { app with keyLeft := f.keyLeft, keyRight := f.keyRight }
      f.ticks).app h1

theorem reachable_inv (env : Env) (hr : FloatRounding env.rnd)
    (hstep : RestingKinematicKept env) (frames : List Frame) :
    (runFrames env (startApp env) frames).racketBodyId = (startApp env).racketBodyId ∧
    PaddleInv env (runFrames env (startApp env) frames) :=
  runFrames_inv env hr frames hstep (startApp env) (startApp_paddleInv env hr hstep.1)

theorem lt_of_lt_rnd_pixel (env : Env) (hr : FloatRounding env.rnd) {x : ℚ}
    (h : 50 < env.rnd (x * pixelsPerMeter)) : 50 < x * pixelsPerMeter := by
  have h50 := hr.ofNat 50 (by norm_num)
  rw [← h50] at h
  exact hr.lt_of_rnd_lt h

theorem lt_of_rnd_pixel_lt (env : Env) (hr : FloatRounding env.rnd) {x : ℚ}
    (h : env.rnd (x * pixelsPerMeter) < 350) : x * pixelsPerMeter < 350 := by
  have h350 := hr.ofNat 350 (by norm_num)
  rw [← h350] at h
  exact hr.lt_of_rnd_lt h

/-! ## Paddle bound invariant -/

/-- C1. Starting from the world built by `initPhysicsWorld`, after every finite sequence
of frames of `SDL_AppIterate` with arbitrary key flags and arbitrary tick values (the
elapsed time is the unsigned 32-bit tick difference divided by 1000, hence non-negative),
and assuming the physics step does not move the paddle, the paddle's horizontal position
times `pixelsPerMeter` lies within [50, 350], both as the float product the program
computes and as the exact product. -/
theorem paddle_bound_invariant (env : Env) (hr : FloatRounding env.rnd)
    (hstep : RestingKinematicKept env) (frames : List Frame) :
    50 ≤ env.rnd ((b2Body_GetPosition (runFrames env (startApp env) frames).worldId
            (runFrames env (startApp env) frames).racketBodyId).x * pixelsPerMeter) ∧
    env.rnd ((b2Body_GetPosition (runFrames env (startApp env) frames).worldId
            (runFrames env (startApp env) frames).racketBodyId).x * pixelsPerMeter) ≤ 350 ∧
    50 ≤ (b2Body_GetPosition (runFrames env (startApp env) frames).worldId
            (runFrames env (startApp env) frames).racketBodyId).x * pixelsPerMeter ∧
    (b2Body_GetPosition (runFrames env (startApp env) frames).worldId
            (runFrames env (startApp env) frames).racketBodyId).x * pixelsPerMeter ≤ 350 := by
  obtain ⟨_, b, hb, _, _, hlo, hhi⟩ := reachable_inv env hr hstep frames
  have hpos : b2Body_GetPosition (runFrames env (startApp env) frames).worldId
      (runFrames env (startApp env) frames).racketBodyId = b.position := by
    simp [b2Body_GetPosition, hb]
  rw [hpos]
  exact ⟨le_of_lt hlo, le_of_lt hhi, le_of_lt (lt_of_lt_rnd_pixel env hr hlo),
    le_of_lt (lt_of_rnd_pixel_lt env hr hhi)⟩

/-- A run of two frames in 24-bit float arithmetic with a moving ball. -/
theorem paddle_bound_invariant_witness :
    FloatRounding floatEnv.rnd ∧ RestingKinematicKept floatEnv ∧
    50 ≤ floatEnv.rnd ((b2Body_GetPosition
        (runFrames floatEnv (startApp floatEnv) [⟨true, false, 600⟩, ⟨true, true, 900⟩]).worldId
        (runFrames floatEnv (startApp floatEnv)
          [⟨true, false, 600⟩, ⟨true, true, 900⟩]).racketBodyId).x * pixelsPerMeter) :=
  ⟨floatRounding_floatEnv, restingKinematicKept_floatEnv,
   (paddle_bound_invariant floatEnv floatRounding_floatEnv restingKinematicKept_floatEnv
      [⟨true, false, 600⟩, ⟨true, true, 900⟩]).1⟩

/-! ## Reject, never clamp -/

theorem iterate_transform (env : Env) (app : App) (ticks : Nat)
    (hstep : RestingKinematicKept env) (b : b2Body)
    (hkin : b.type = b2BodyType.b2_kinematicBody ∧ b.linearVelocity = ⟨0, 0⟩)
    (hb : (racketControl env { app with lastTickTime := ticks % 4294967296 }
            (deltaTime env (ticks % 4294967296) app.lastTickTime)).bodies[app.racketBodyId]?
          = some b) :
    b2Body_GetTransform (SDL_AppIterate env app ticks).app.worldId app.racketBodyId =
      some ⟨b.position, b.rotation⟩ := by
  have hb2 := hstep.2 _ (env.rnd (env.rndDouble (16 / 1000))) 5 _ b hb hkin.1 hkin.2
  have : (SDL_AppIterate env app ticks).app.worldId.bodies[app.racketBodyId]? = some b := by
    simpa [SDL_AppIterate] using hb2
  simp [b2Body_GetTransform, this]

/-- C2. In every frame reached from the initial world (the physics step not moving the
paddle), with `c` the candidate (current `x` minus `racketSpeed * deltaTime` for left, plus
for right): the paddle's new `x` equals `c` if and only if the pixel position of `c` lies
strictly between 50 and 350; when it does, the new transform is `c` with the old `y` and
the rotation made from angle zero; when it does not, or when no key is held, the transform
after the frame is exactly the one before it; and `y` never changes. -/
theorem reject_never_clamp (env : Env) (hr : FloatRounding env.rnd)
    (hstep : RestingKinematicKept env)
    (app : App) (hreach : Reachable env app) (keyLeft keyRight : Bool) (ticks : Nat) :
    ∃ old new : b2Transform,
      b2Body_GetTransform app.worldId app.racketBodyId = some old ∧
      b2Body_GetTransform
        (SDL_AppIterate env { app with keyLeft := keyLeft, keyRight := keyRight }
          ticks).app.worldId app.racketBodyId = some new ∧
      (∀ c, candidateX env keyLeft keyRight old.p.x
              (deltaTime env (ticks % 4294967296) app.lastTickTime) = some c →
          (new.p.x = c ↔
            (50 < env.rnd (c * pixelsPerMeter) ∧ env.rnd (c * pixelsPerMeter) < 350))) ∧
      (∀ c, candidateX env keyLeft keyRight old.p.x
              (deltaTime env (ticks % 4294967296) app.lastTickTime) = some c →
          50 < env.rnd (c * pixelsPerMeter) → env.rnd (c * pixelsPerMeter) < 350 →
          new = ⟨⟨c, old.p.y⟩, env.b2MakeRot 0⟩) ∧
      ((candidateX env keyLeft keyRight old.p.x
              (deltaTime env (ticks % 4294967296) app.lastTickTime) = none ∨
        ∃ c, candidateX env keyLeft keyRight old.p.x
              (deltaTime env (ticks % 4294967296) app.lastTickTime) = some c ∧
          ¬ (50 < env.rnd (c * pixelsPerMeter) ∧ env.rnd (c * pixelsPerMeter) < 350)) →
        new = old) ∧
      new.p.y = old.p.y := by
  obtain ⟨frames, rfl⟩ := hreach
  obtain ⟨_, b, hb, hkin, hx, hlo, hhi⟩ := reachable_inv env hr hstep frames
  generalize runFrames env (startApp env) frames = app at hb
  have hdt := deltaTime_nonneg env hr (ticks % 4294967296) app.lastTickTime
  obtain ⟨hacc, hrej, hnone⟩ := racketControl_body env hr
    { app with keyLeft := keyLeft, keyRight := keyRight, lastTickTime := ticks % 4294967296 }
    _ hdt b hb hx hlo hhi
  have hold : b2Body_GetTransform app.worldId app.racketBodyId
      = some ⟨b.position, b.rotation⟩ := by
    simp [b2Body_GetTransform, hb]
  cases hc : candidateX env keyLeft keyRight b.position.x
      (deltaTime env (ticks % 4294967296) app.lastTickTime) with
  | none =>
    have hw := hnone hc
    have hnew := iterate_transform env { app with keyLeft := keyLeft, keyRight := keyRight }
      ticks hstep b hkin (by rw [hw]; exact hb)
    refine ⟨_, _, hold, hnew, ?_, ?_, ?_, rfl⟩
    · intro c h; exact absurd (hc.symm.trans h) (by simp)
    · intro c h; exact absurd (hc.symm.trans h) (by simp)
    · intro _; rfl
  | some c =>
    by_cases hin : 50 < env.rnd (c * pixelsPerMeter) ∧ env.rnd (c * pixelsPerMeter) < 350
    · have hnew := iterate_transform env { app with keyLeft := keyLeft, keyRight := keyRight }
        ticks hstep (movedTo env b c) hkin (hacc c hc hin.1 hin.2)
      refine ⟨_, _, hold, hnew, ?_, ?_, ?_, rfl⟩
      · intro c2 h
        have h := hc.symm.trans h
        simp only [Option.some.injEq] at h
        subst h
        simp [movedTo, hin]
      · intro c2 h _ _
        have h := hc.symm.trans h
        simp only [Option.some.injEq] at h
        subst h
        rfl
      · rintro (h | ⟨c2, h, hn⟩)
        · exact absurd (hc.symm.trans h) (by simp)
        · have h := hc.symm.trans h
          simp only [Option.some.injEq] at h
          subst h
          exact absurd hin hn
    · obtain ⟨hw, hne⟩ := hrej c hc hin
      have hnew := iterate_transform env { app with keyLeft := keyLeft, keyRight := keyRight }
        ticks hstep b hkin (by rw [hw]; exact hb)
      refine ⟨_, _, hold, hnew, ?_, ?_, ?_, rfl⟩
      · intro c2 h
        have h := hc.symm.trans h
        simp only [Option.some.injEq] at h
        subst h
        constructor
        · intro h; exact absurd h hne
        · intro h; exact absurd h hin
      · intro c2 h h1 h2
        have h := hc.symm.trans h
        simp only [Option.some.injEq] at h
        subst h
        exact absurd ⟨h1, h2⟩ hin
      · intro _; rfl

theorem exact_start_transform :
    b2Body_GetTransform (startApp exactEnv).worldId (startApp exactEnv).racketBodyId =
      some ⟨⟨20 / 3, 53 / 6⟩, ⟨1, 0⟩⟩ := by
  simp [startApp, initPhysicsWorld_eq, b2Body_GetTransform, builtBox, toSim, pixelsPerMeter,
    exactEnv]
  norm_num

/-- The initial state in exact arithmetic, left key held, 600 ms elapsed: the candidate
11/3 (pixel 110) is in range and becomes the new position. -/
theorem reject_never_clamp_witness :
    FloatRounding exactEnv.rnd ∧ RestingKinematicKept exactEnv ∧
    Reachable exactEnv (startApp exactEnv) ∧
    b2Body_GetTransform
        (SDL_AppIterate exactEnv { startApp exactEnv with keyLeft := true, keyRight := false }
          600).app.worldId (startApp exactEnv).racketBodyId =
      some ⟨⟨11 / 3, 53 / 6⟩, exactEnv.b2MakeRot 0⟩ := by
  refine ⟨floatRounding_exactEnv, restingKinematicKept_exactEnv, ⟨[], rfl⟩, ?_⟩
  obtain ⟨old, new, hold, hnew, _, hacc, _, _⟩ :=
    reject_never_clamp exactEnv floatRounding_exactEnv restingKinematicKept_exactEnv
      (startApp exactEnv) ⟨[], rfl⟩ true false 600
  rw [exact_start_transform] at hold
  obtain rfl := Option.some.inj hold
  have hd : deltaTime exactEnv (600 % 4294967296) (startApp exactEnv).lastTickTime = 3 / 5 := by
    norm_num [deltaTime, tickDiff, exactEnv, startApp]
  have hc : candidateX exactEnv true false (20 / 3) (3 / 5) = some (11 / 3) := by
    norm_num [candidateX, exactEnv, racketSpeed]
  rw [hd] at hacc
  have h := hacc (11 / 3) hc (by norm_num [exactEnv, pixelsPerMeter])
    (by norm_num [exactEnv, pixelsPerMeter])
  rw [hnew, h]

/-! ## Left before right -/

theorem exact_left_frame :
    (b2Body_GetPosition (startApp exactEnv).worldId (startApp exactEnv).racketBodyId).x
      = 20 / 3 ∧
    (b2Body_GetPosition
      (SDL_AppIterate exactEnv { startApp exactEnv with keyLeft := true, keyRight := true }
        600).app.worldId (startApp exactEnv).racketBodyId).x = 11 / 3 := by
  have hd : deltaTime exactEnv (600 % 4294967296) 0 = 3 / 5 := by
    norm_num [deltaTime, tickDiff, exactEnv]
  constructor
  · simp [startApp, initPhysicsWorld_eq, b2Body_GetPosition, builtBox, toSim, pixelsPerMeter,
      exactEnv]
    norm_num
  · simp only [SDL_AppIterate, startApp, initPhysicsWorld_eq, hd]
    simp [racketControl, b2Body_GetPosition, b2Body_SetTransform, updateBody, builtBox, toSim,
      pixelsPerMeter, racketSpeed, exactEnv]
    norm_num

/-- C3. With both keys held the paddle update is exactly the update with only the left
key held, for every state and every elapsed time, both for the paddle block alone and for
the world after the whole frame; the paddle's `x` does not increase in a frame with the left
key held (float `x`, non-negative elapsed time); and the two inputs do not cancel: when the
left candidate passes the bound test the paddle is at the left candidate, as in the run
from the initial state in exact arithmetic where 600 ms with both keys held move the
paddle from 20/3 to 11/3. -/
theorem left_before_right (env : Env) (app : App) (dt : ℚ) (ticks : Nat) :
    racketControl env { app with keyLeft := true, keyRight := true } dt =
      racketControl env { app with keyLeft := true, keyRight := false } dt ∧
    (SDL_AppIterate env { app with keyLeft := true, keyRight := true } ticks).app.worldId =
      (SDL_AppIterate env { app with keyLeft := true, keyRight := false } ticks).app.worldId ∧
    (FloatRounding env.rnd → 0 ≤ dt →
      env.rnd (b2Body_GetPosition app.worldId app.racketBodyId).x =
        (b2Body_GetPosition app.worldId app.racketBodyId).x →
      ∀ keyRight : Bool,
        (b2Body_GetPosition
          (racketControl env { app with keyLeft := true, keyRight := keyRight } dt)
          app.racketBodyId).x ≤ (b2Body_GetPosition app.worldId app.racketBodyId).x) ∧
    (∀ b : b2Body, app.worldId.bodies[app.racketBodyId]? = some b →
      50 < env.rnd (env.rnd (b.position.x - env.rnd (racketSpeed * dt)) * pixelsPerMeter) →
      b2Body_GetPosition (racketControl env { app with keyLeft := true, keyRight := true } dt)
        app.racketBodyId = ⟨env.rnd (b.position.x - env.rnd (racketSpeed * dt)), b.position.y⟩) ∧
    ((b2Body_GetPosition
        (SDL_AppIterate exactEnv { startApp exactEnv with keyLeft := true, keyRight := true }
          600).app.worldId (startApp exactEnv).racketBodyId).x <
      (b2Body_GetPosition (startApp exactEnv).worldId (startApp exactEnv).racketBodyId).x) := by
  refine ⟨rfl, rfl, ?_, ?_, ?_⟩
  · intro hr hdt hx keyRight
    cases hb : app.worldId.bodies[app.racketBodyId]? with
    | none =>
      simp only [racketControl, b2Body_GetPosition, b2Body_SetTransform, updateBody, hb]
      split_ifs <;> simp [hb]
    | some b =>
      have hpos : b2Body_GetPosition app.worldId app.racketBodyId = b.position := by
        simp [b2Body_GetPosition, hb]
      rw [hpos] at hx ⊢
      rw [racketControl_eq env { app with keyLeft := true, keyRight := keyRight } dt b hb]
      simp only [if_true]
      split_ifs with h
      · rw [getPosition_updateBody _ _ _ b hb]
        exact left_candidate_le env hr b.position.x dt hx hdt
      · simp [b2Body_GetPosition, hb]
  · intro b hb h
    rw [racketControl_eq env { app with keyLeft := true, keyRight := true } dt b hb]
    simp only [if_true, if_pos h]
    rw [getPosition_updateBody _ _ _ b hb]
    rfl
  · rw [exact_left_frame.1, exact_left_frame.2]
    norm_num

/-- The initial state in exact arithmetic, 600 ms elapsed, both keys held: `x` does not
increase, and the paddle is at the left candidate 11/3. -/
theorem left_before_right_witness :
    FloatRounding exactEnv.rnd ∧ (0 : ℚ) ≤ 3 / 5 ∧
    (b2Body_GetPosition
      (racketControl exactEnv { startApp exactEnv with keyLeft := true, keyRight := true }
        (3 / 5)) (startApp exactEnv).racketBodyId).x
      ≤ (b2Body_GetPosition (startApp exactEnv).worldId (startApp exactEnv).racketBodyId).x ∧
    b2Body_GetPosition
      (racketControl exactEnv { startApp exactEnv with keyLeft := true, keyRight := true }
        (3 / 5)) (startApp exactEnv).racketBodyId = ⟨11 / 3, 53 / 6⟩ := by
  refine ⟨floatRounding_exactEnv, by norm_num,
    (left_before_right exactEnv (startApp exactEnv) (3 / 5) 600).2.2.1
      floatRounding_exactEnv (by norm_num) rfl true, ?_⟩
  have h := (left_before_right exactEnv (startApp exactEnv) (3 / 5) 600).2.2.2.1
    (builtBox exactEnv b2BodyType.b2_kinematicBody 200 265 30 5
      exactEnv.b2DefaultBodyDef.rotation (some "racket"))
    (by simp [startApp, initPhysicsWorld_eq])
    (by norm_num [builtBox, toSim, exactEnv, pixelsPerMeter, racketSpeed])
  rw [h]
  norm_num [builtBox, toSim, exactEnv, pixelsPerMeter, racketSpeed]

/-! ## Fixed-step independence -/

theorem racketControl_noKeys (env : Env) (app : App) (dt : ℚ)
    (hl : app.keyLeft = false) (hr : app.keyRight = false) :
    racketControl env app dt = app.worldId := by
  simp [racketControl, hl, hr]

theorem iterate_noKeys (env : Env) (app : App) (t : Nat)
    (hl : app.keyLeft = false) (hr : app.keyRight = false) :
    (SDL_AppIterate env app t).app.worldId = fixedStep env app.worldId := by
  simp only [SDL_AppIterate, fixedStep]
  rw [racketControl_noKeys env { app with lastTickTime := t % 4294967296 } _ hl hr]

theorem runTicks_noKeys (env : Env) (ticks : List Nat) : ∀ app : App,
    app.keyLeft = false → app.keyRight = false →
    (runTicks env app ticks).worldId = (fixedStep env)^[ticks.length] app.worldId ∧
    (runTicks env app ticks).ballBodyId = app.ballBodyId := by
  induction ticks with
  | nil => intro app _ _; exact ⟨rfl, rfl⟩
  | cons t ts ih =>
    intro app hl hr
    have h := ih (SDL_AppIterate env app t).app hl hr
    rw [iterate_noKeys env app t hl hr] at h
    simpa [runTicks, Function.iterate_succ_apply] using h

/-- C7. With neither key held, running `SDL_AppIterate` once per tick value calls the
physics step with the fixed arguments (0.016 as float, 5) exactly once per iteration, so
the final world is the N-fold fixed step of the initial world whatever the tick values are;
two runs of the same length from the same state end in the same world, hence with the same
ball position and velocity; and in any frame the tick value enters the world only through
the paddle block. -/
theorem fixed_step_independence (env : Env) (app : App)
    (hl : app.keyLeft = false) (hr : app.keyRight = false)
    (ticks1 ticks2 : List Nat) (hlen : ticks1.length = ticks2.length) :
    (runTicks env app ticks1).worldId = (fixedStep env)^[ticks1.length] app.worldId ∧
    (runTicks env app ticks1).worldId = (runTicks env app ticks2).worldId ∧
    b2Body_GetTransform (runTicks env app ticks1).worldId (runTicks env app ticks1).ballBodyId =
      b2Body_GetTransform (runTicks env app ticks2).worldId
        (runTicks env app ticks2).ballBodyId ∧
    b2Body_GetLinearVelocity (runTicks env app ticks1).worldId
        (runTicks env app ticks1).ballBodyId =
      b2Body_GetLinearVelocity (runTicks env app ticks2).worldId
        (runTicks env app ticks2).ballBodyId ∧
    (∀ (a : App) (t : Nat), (SDL_AppIterate env a t).app.worldId =
      env.b2World_Step
        (racketControl env { a with lastTickTime := t % 4294967296 }
          (deltaTime env (t % 4294967296) a.lastTickTime))
        (env.rnd (env.rndDouble (16 / 1000))) 5) := by
  obtain ⟨h1, hb1⟩ := runTicks_noKeys env ticks1 app hl hr
  obtain ⟨h2, hb2⟩ := runTicks_noKeys env ticks2 app hl hr
  have hw : (runTicks env app ticks1).worldId = (runTicks env app ticks2).worldId := by
    rw [h1, h2, hlen]
  refine ⟨h1, hw, ?_, ?_, fun _ _ => rfl⟩
  · rw [hw, hb1, hb2]
  · rw [hw, hb1, hb2]

/-- A physics engine that moves every body by its velocity times the time step, run over
two different tick sequences of length three. -/
theorem fixed_step_independence_witness :
    (runTicks driftEnv (startApp driftEnv) [0, 16, 40]).worldId =
      (runTicks driftEnv (startApp driftEnv) [5, 1000, 99999]).worldId :=
  (fixed_step_independence driftEnv (startApp driftEnv) rfl rfl [0, 16, 40] [5, 1000, 99999]
    rfl).2.1

/-! ## The paddle stays clear of the side walls -/

/-- A value with a 24-bit significand that is at least `2 ^ k` is a multiple of
`2 ^ (k - 23)`. -/
theorem Binary32.grid {x : ℚ} (hx : Binary32 x) (k : ℤ) (hk : (2 : ℚ) ^ k ≤ x) :
    ∃ n : ℤ, x = (n : ℚ) * (2 : ℚ) ^ (k - 23) := by
  obtain ⟨m, e, hm, rfl⟩ := hx
  have h2e : (0 : ℚ) < (2 : ℚ) ^ e := zpow_pos (by norm_num) e
  have h2k : (0 : ℚ) < (2 : ℚ) ^ k := zpow_pos (by norm_num) k
  have hmlt : (m : ℚ) < 16777216 := by
    have : m < 16777216 := lt_of_le_of_lt (le_abs_self m) hm
    exact_mod_cast this
  have hlt : (2 : ℚ) ^ k < (2 : ℚ) ^ (24 + e) := by
    have h24 : (2 : ℚ) ^ (24 + e) = 16777216 * (2 : ℚ) ^ e := by
      rw [zpow_add₀ (by norm_num)]
      norm_num
    rw [h24]
    calc (2 : ℚ) ^ k ≤ (m : ℚ) * (2 : ℚ) ^ e := hk
      _ < 16777216 * (2 : ℚ) ^ e := mul_lt_mul_of_pos_right hmlt h2e
  have hke : k < 24 + e := (zpow_lt_zpow_iff_right₀ (by norm_num)).mp hlt
  have hd : 0 ≤ e - (k - 23) := by omega
  refine ⟨m * 2 ^ (e - (k - 23)).toNat, ?_⟩
  have hsplit : (2 : ℚ) ^ e = (2 : ℚ) ^ ((e - (k - 23)).toNat : ℤ) * (2 : ℚ) ^ (k - 23) := by
    rw [← zpow_add₀ (by norm_num), Int.toNat_of_nonneg hd]
    congr 1
    ring
  rw [hsplit, zpow_natCast]
  push_cast
  ring

/-- Clearance in the binary32 arithmetic: a float `x` whose pixel position passes the bound
test keeps the paddle edges strictly inside the rounded wall faces. -/
theorem clear_binary32 (x : ℚ) (hx : Binary32 x) (h50 : 50 < x * 30) (h350 : x * 30 < 350) :
    (11184811 : ℚ) / 33554432 + 11184811 / 33554432 < x - 1 ∧
    x + 1 < 13 - 11184811 / 33554432 := by
  constructor
  · by_cases h2 : x < 2
    · obtain ⟨n, hn⟩ := hx.grid 0 (by norm_num; linarith)
      have hpow : (2 : ℚ) ^ ((0 : ℤ) - 23) = 1 / 8388608 := by norm_num
      rw [hpow] at hn
      have hn1 : (41943040 : ℚ) < 3 * (n : ℚ) := by rw [hn] at h50; linarith
      have hn2 : (41943040 : ℤ) < 3 * n := by exact_mod_cast hn1
      have hn3 : (13981014 : ℤ) ≤ n := by omega
      have hn4 : (13981014 : ℚ) ≤ (n : ℚ) := by exact_mod_cast hn3
      rw [hn]
      linarith
    · linarith [not_lt.mp h2]
  · by_cases h8 : 8 ≤ x
    · obtain ⟨n, hn⟩ := hx.grid 3 (by norm_num; linarith)
      have hpow : (2 : ℚ) ^ ((3 : ℤ) - 23) = 1 / 1048576 := by norm_num
      rw [hpow] at hn
      have hn1 : 3 * (n : ℚ) < 36700160 := by rw [hn] at h350; linarith
      have hn2 : 3 * n < (36700160 : ℤ) := by exact_mod_cast hn1
      have hn3 : n ≤ (12233386 : ℤ) := by omega
      have hn4 : (n : ℚ) ≤ 12233386 := by exact_mod_cast hn3
      rw [hn]
      linarith
    · linarith [not_le.mp h8]

/-- C8. With the geometry built by `initPhysicsWorld`, in exact arithmetic and in binary32
arithmetic (`WallArithmetic`): the left wall's inner face is at pixel 20 and the right
wall's at pixel 380 (up to the rounding of 10/30, less than one millionth of a pixel), the
paddle's half-width is 30 pixels, and the initial paddle position satisfies the input
mapper's bound; every float paddle position `x` that passes the bound test (pixel position
strictly between 50 and 350) has its left edge strictly to the right of the left wall's
inner face and its right edge strictly to the left of the right wall's inner face; hence so
does the paddle in every reachable state (the physics step not moving the paddle). -/
theorem paddle_clear_of_walls (env : Env) (hr : FloatRounding env.rnd)
    (harith : WallArithmetic env) :
    ∃ (lw rw rk : b2Body) (hl hw hk : ℚ),
      (initPhysicsWorld env).worldId.bodies[0]? = some lw ∧
      (initPhysicsWorld env).worldId.bodies[1]? = some rw ∧
      (initPhysicsWorld env).worldId.bodies[(initPhysicsWorld env).racketBodyId]? = some rk ∧
      halfWidth lw = some hl ∧ halfWidth rw = some hw ∧ halfWidth rk = some hk ∧
      (|(lw.position.x + hl) * pixelsPerMeter - 20| < 1 / 1000000 ∧
       |(rw.position.x - hw) * pixelsPerMeter - 380| < 1 / 1000000 ∧
       hk * pixelsPerMeter = 30) ∧
      (50 < env.rnd (rk.position.x * pixelsPerMeter) ∧
       env.rnd (rk.position.x * pixelsPerMeter) < 350) ∧
      (∀ x : ℚ, env.rnd x = x →
        50 < env.rnd (x * pixelsPerMeter) → env.rnd (x * pixelsPerMeter) < 350 →
        lw.position.x + hl < x - hk ∧ x + hk < rw.position.x - hw) ∧
      (RestingKinematicKept env → ∀ frames : List Frame,
        lw.position.x + hl <
          (b2Body_GetPosition (runFrames env (startApp env) frames).worldId
            (runFrames env (startApp env) frames).racketBodyId).x - hk ∧
        (b2Body_GetPosition (runFrames env (startApp env) frames).worldId
            (runFrames env (startApp env) frames).racketBodyId).x + hk <
          rw.position.x - hw) := by
  have h13 : toSim env 390 = 13 := by
    have := hr.ofNat 13 (by norm_num)
    simpa [toSim, pixelsPerMeter, show (390 : ℚ) / 30 = 13 by norm_num] using this
  have h1 : toSim env 30 = 1 := by
    simpa [toSim, pixelsPerMeter] using hr.one
  have hclear : ∀ x : ℚ, env.rnd x = x → 50 < env.rnd (x * pixelsPerMeter) →
      env.rnd (x * pixelsPerMeter) < 350 →
      toSim env 10 + toSim env 10 < x - toSim env 30 ∧
      x + toSim env 30 < toSim env 390 - toSim env 10 := by
    intro x hx hlo hhi
    have h50 := lt_of_lt_rnd_pixel env hr hlo
    have h350 := lt_of_rnd_pixel_lt env hr hhi
    simp only [pixelsPerMeter] at h50 h350
    rw [h13, h1]
    rcases harith with hex | ⟨hgrid, hthird⟩
    · rw [hex]
      simp only [pixelsPerMeter]
      constructor <;> linarith
    · rw [hthird]
      have hb32 : Binary32 x := by
        have := hgrid x
        rwa [hx] at this
      exact clear_binary32 x hb32 h50 h350
  have hface : |(toSim env 10 + toSim env 10) * pixelsPerMeter - 20| < 1 / 1000000 ∧
      |(toSim env 390 - toSim env 10) * pixelsPerMeter - 380| < 1 / 1000000 := by
    rw [h13]
    rcases harith with hex | ⟨_, hthird⟩
    · rw [hex]
      norm_num [pixelsPerMeter]
    · rw [hthird]
      norm_num [pixelsPerMeter, abs_lt]
  obtain ⟨hlo, hhi⟩ := start_pixel_bounds env hr
  refine ⟨builtBox env b2BodyType.b2_staticBody 10 150 10 150
      env.b2DefaultBodyDef.rotation none,
    builtBox env b2BodyType.b2_staticBody 390 150 10 150 env.b2DefaultBodyDef.rotation none,
    builtBox env b2BodyType.b2_kinematicBody 200 265 30 5
      env.b2DefaultBodyDef.rotation (some "racket"),
    toSim env 10, toSim env 10, toSim env 30, ?_, ?_, ?_, rfl, rfl, rfl, ?_, ⟨hlo, hhi⟩, ?_, ?_⟩
  · simp [initPhysicsWorld_eq]
  · simp [initPhysicsWorld_eq]
  · simp [initPhysicsWorld_eq]
  · refine ⟨hface.1, hface.2, ?_⟩
    rw [h1]
    norm_num [pixelsPerMeter]
  · intro x hx hlo2 hhi2
    exact hclear x hx hlo2 hhi2
  · intro hstep frames
    obtain ⟨_, b, hb, _, hx, hlo2, hhi2⟩ := reachable_inv env hr hstep frames
    have hpos : b2Body_GetPosition (runFrames env (startApp env) frames).worldId
        (runFrames env (startApp env) frames).racketBodyId = b.position := by
      simp [b2Body_GetPosition, hb]
    rw [hpos]
    exact hclear b.position.x hx hlo2 hhi2

theorem floatEnv_rnd_int (n : ℤ) (hn : |n| ≤ 16777216) : floatEnv.rnd (n : ℚ) = (n : ℚ) :=
  roundUp24_int n hn

/-- The 24-bit float arithmetic (the binary32 case), with the paddle at `x = 2`, pixel 60. -/
theorem paddle_clear_of_walls_witness :
    FloatRounding floatEnv.rnd ∧ WallArithmetic floatEnv ∧
    floatEnv.rnd 2 = 2 ∧ 50 < floatEnv.rnd (2 * pixelsPerMeter) ∧
    floatEnv.rnd (2 * pixelsPerMeter) < 350 ∧
    ∃ (lw rw rk : b2Body) (hl hw hk : ℚ),
      (initPhysicsWorld floatEnv).worldId.bodies[0]? = some lw ∧
      (initPhysicsWorld floatEnv).worldId.bodies[1]? = some rw ∧
      halfWidth lw = some hl ∧ halfWidth rw = some hw ∧ halfWidth rk = some hk ∧
      (lw.position.x + hl < 2 - hk ∧ 2 + hk < rw.position.x - hw) := by
  have h2 : floatEnv.rnd 2 = 2 := by simpa using floatEnv_rnd_int 2 (by norm_num)
  have h60 : floatEnv.rnd (2 * pixelsPerMeter) = 60 := by
    have h : (2 : ℚ) * pixelsPerMeter = ((60 : ℤ) : ℚ) := by norm_num [pixelsPerMeter]
    rw [h]
    simpa using floatEnv_rnd_int 60 (by norm_num)
  have hlo : 50 < floatEnv.rnd (2 * pixelsPerMeter) := by rw [h60]; norm_num
  have hhi : floatEnv.rnd (2 * pixelsPerMeter) < 350 := by rw [h60]; norm_num
  obtain ⟨lw, rw, rk, hl, hw, hk, h0, h1, _, h3, h4, h5, _, _, hall, _⟩ :=
    paddle_clear_of_walls floatEnv floatRounding_floatEnv wallArithmetic_floatEnv
  exact ⟨floatRounding_floatEnv, wallArithmetic_floatEnv, h2, hlo, hhi,
    lw, rw, rk, hl, hw, hk, h0, h1, h3, h4, h5, hall 2 h2 hlo hhi⟩

/-! ## The polygon callback -/

theorem getElem?_eq_getD {α : Type} (l : List α) (i : Nat) (d : α) (h : i < l.length) :
    l[i]? = some (l.getD i d) := by
  simp [List.getD, List.getElem?_eq_getElem h]

theorem polygonLoop_some (env : Env) (transform : b2Transform) (vertices : List b2Vec2) :
    ∀ (k i : Nat), i + k = vertices.length →
      polygonLoop env transform vertices (vertices.length : Int) i =
        some ((List.range' i k).map (loopEdge env transform vertices)) := by
  intro k
  induction k with
  | zero =>
    intro i hi
    rw [polygonLoop]
    have : ¬ ((i : Int) < (vertices.length : Int)) := by omega
    simp [this]
  | succ k ih =>
    intro i hi
    rw [polygonLoop]
    have hlt : (i : Int) < (vertices.length : Int) := by omega
    have hi2 : i < vertices.length := by omega
    have hnext : (if (i : Int) + 1 = (vertices.length : Int) then 0 else i + 1)
        = (i + 1) % vertices.length := by
      split_ifs with h
      · have : i + 1 = vertices.length := by omega
        rw [this, Nat.mod_self]
      · have : i + 1 < vertices.length := by omega
        rw [Nat.mod_eq_of_lt this]
    have hn2 : (i + 1) % vertices.length < vertices.length :=
      Nat.mod_lt _ (by omega)
    simp only [hlt, if_true, hnext]
    rw [getElem?_eq_getD vertices i ⟨0, 0⟩ hi2,
      getElem?_eq_getD vertices ((i + 1) % vertices.length) ⟨0, 0⟩ hn2]
    simp only [ih (i + 1) (by omega), Option.map_some', List.range'_succ, List.map_cons]
    rfl

theorem drawSolidPolygon_eq (env : Env) (transform : b2Transform) (vertices : List b2Vec2)
    (radius : ℚ) (color : Nat) :
    drawSolidPolygon env transform vertices (vertices.length : Int) radius color =
      some (colorCall env color ::
        (List.range vertices.length).map (loopEdge env transform vertices)) := by
  simp only [drawSolidPolygon, polygonLoop_some env transform vertices vertices.length 0
    (by omega), Option.map_some', List.range_eq_range', colorCall]

/-- C9. For every vertex array and `vertexCount` equal to its length `n`,
`drawSolidPolygon` reads no vertex outside the array and issues, after the colour call,
exactly `n` line draws; the `i`-th runs from the pixel point of `vertices[i]` to the pixel
point of `vertices[(i + 1) mod n]`; so each line starts where the previous one ended and
the last line ends at the start point of the first; and the radius argument does not
affect the output. -/
theorem polygon_closed_loop (env : Env) (transform : b2Transform) (vertices : List b2Vec2)
    (radius : ℚ) (color : Nat) :
    ∃ lines : List RenderCall,
      drawSolidPolygon env transform vertices (vertices.length : Int) radius color =
        some (colorCall env color :: lines) ∧
      lines.length = vertices.length ∧
      (∀ i : Nat, i < vertices.length →
        ∃ a b : b2Vec2, vertices[i]? = some a ∧
          vertices[(i + 1) % vertices.length]? = some b ∧
          lines[i]? = some (segment (pixelPoint env transform a)
                                     (pixelPoint env transform b))) ∧
      (∀ i : Nat, i + 1 < vertices.length →
        ∃ p : ℚ × ℚ, (lines[i]?).bind endPoint = some p ∧
          (lines[i + 1]?).bind startPoint = some p) ∧
      (0 < vertices.length →
        ∃ p : ℚ × ℚ, (lines[vertices.length - 1]?).bind endPoint = some p ∧
          (lines[0]?).bind startPoint = some p) ∧
      (∀ radius2 : ℚ,
        drawSolidPolygon env transform vertices (vertices.length : Int) radius2 color =
          drawSolidPolygon env transform vertices (vertices.length : Int) radius color) := by
  have hline : ∀ i : Nat, i < vertices.length →
      ((List.range vertices.length).map (loopEdge env transform vertices))[i]? =
        some (loopEdge env transform vertices i) := by
    intro i hi
    simp [List.getElem?_map, List.getElem?_range hi]
  refine ⟨(List.range vertices.length).map (loopEdge env transform vertices),
    drawSolidPolygon_eq env transform vertices radius color, by simp, ?_, ?_, ?_, ?_⟩
  · intro i hi
    have hn2 : (i + 1) % vertices.length < vertices.length := Nat.mod_lt _ (by omega)
    exact ⟨vertices.getD i ⟨0, 0⟩, vertices.getD ((i + 1) % vertices.length) ⟨0, 0⟩,
      getElem?_eq_getD vertices i _ hi, getElem?_eq_getD vertices _ _ hn2, hline i hi⟩
  · intro i hi
    refine ⟨pixelPoint env transform (vertices.getD (i + 1) ⟨0, 0⟩), ?_, ?_⟩
    · rw [hline i (by omega)]
      simp [loopEdge, segment, endPoint, Nat.mod_eq_of_lt hi]
    · rw [hline (i + 1) hi]
      simp [loopEdge, segment, startPoint]
  · intro hpos
    refine ⟨pixelPoint env transform (vertices.getD 0 ⟨0, 0⟩), ?_, ?_⟩
    · rw [hline (vertices.length - 1) (by omega)]
      have : vertices.length - 1 + 1 = vertices.length := by omega
      simp [loopEdge, segment, endPoint, this]
    · rw [hline 0 hpos]
      simp [loopEdge, segment, startPoint]
  · intro radius2
    rfl

/-- A triangle in exact arithmetic under the identity transform. -/
theorem polygon_closed_loop_witness :
    ∃ lines : List RenderCall,
      drawSolidPolygon exactEnv ⟨⟨0, 0⟩, ⟨1, 0⟩⟩ [⟨0, 0⟩, ⟨1, 0⟩, ⟨0, 1⟩] 3 0 255 =
        some (colorCall exactEnv 255 :: lines) ∧
      ∃ b : b2Vec2, [(⟨0, 0⟩ : b2Vec2), ⟨1, 0⟩, ⟨0, 1⟩][(2 + 1) % 3]? = some b ∧
        lines[2]? = some (segment (pixelPoint exactEnv ⟨⟨0, 0⟩, ⟨1, 0⟩⟩ ⟨0, 1⟩)
                                   (pixelPoint exactEnv ⟨⟨0, 0⟩, ⟨1, 0⟩⟩ b)) := by
  obtain ⟨lines, h1, _, h3, _⟩ :=
    polygon_closed_loop exactEnv ⟨⟨0, 0⟩, ⟨1, 0⟩⟩ [⟨0, 0⟩, ⟨1, 0⟩, ⟨0, 1⟩] 0 255
  obtain ⟨a, b, ha, hb, hl⟩ := h3 2 (by decide)
  have ha2 : a = ⟨0, 1⟩ := by
    have : [(⟨0, 0⟩ : b2Vec2), ⟨1, 0⟩, ⟨0, 1⟩][2]? = some ⟨0, 1⟩ := rfl
    rw [this] at ha
    exact (Option.some.inj ha).symm
  subst ha2
  exact ⟨lines, h1, b, hb, hl⟩

/-! ## The circle callback -/

theorem angleStep_eq (env : Env) (hr : FloatRounding env.rnd) : angleStep env = 18 := by
  have h := hr.ofNat 18 (by norm_num)
  simpa [angleStep, numberOfSegments, show (360 : ℚ) / 20 = 18 by norm_num] using h

theorem loopAngle_next (env : Env) (hr : FloatRounding env.rnd) (k : Nat) :
    (if env.rnd (loopAngle k + angleStep env) ≥ 360 then 0
      else env.rnd (loopAngle k + angleStep env)) = loopAngle (k + 1) := by
  have hsum : loopAngle k + angleStep env = ((18 * k % 360 + 18 : ℕ) : ℚ) := by
    rw [angleStep_eq env hr, loopAngle]
    push_cast
    ring
  have hle : 18 * k % 360 + 18 ≤ 360 := by omega
  rw [hsum, hr.nat _ (by omega), loopAngle]
  by_cases h : 18 * k % 360 + 18 = 360
  · have hz : 18 * (k + 1) % 360 = 0 := by omega
    rw [h, hz]
    norm_num
  · have hlt : 18 * k % 360 + 18 < 360 := by omega
    have hn : 18 * (k + 1) % 360 = 18 * k % 360 + 18 := by omega
    have : ¬ (((18 * k % 360 + 18 : ℕ) : ℚ) ≥ 360) := by
      rw [ge_iff_le, not_le]
      exact_mod_cast hlt
    rw [if_neg this, hn]

/-- One iteration of the loop: the line drawn ends at the claim's point for the current
angle, and the loop goes on from that point with the advanced angle. -/
theorem circleLoop_step (env : Env) (transform : b2Transform) (radius : ℚ) (i : Nat)
    (hi : i < 20) (x0 y0 angle : ℚ) :
    circleLoop env transform radius i x0 y0 angle =
      RenderCall.SDL_RenderLine x0 y0 (circlePixelPoint env transform radius angle).1
          (circlePixelPoint env transform radius angle).2 ::
        circleLoop env transform radius (i + 1)
          (circlePixelPoint env transform radius angle).1
          (circlePixelPoint env transform radius angle).2
          (if env.rnd (angle + angleStep env) ≥ 360 then 0
           else env.rnd (angle + angleStep env)) := by
  rw [circleLoop]
  have hlt : i < numberOfSegments := by simp only [numberOfSegments]; exact hi
  simp only [hlt, if_true, circlePixelPoint, pixelPoint, toRadians]

theorem circleLoop_eq (env : Env) (hr : FloatRounding env.rnd) (transform : b2Transform)
    (radius : ℚ) :
    ∀ (k i : Nat), i + k = 20 →
      circleLoop env transform radius i
          (circlePixelPoint env transform radius (loopAngle i)).1
          (circlePixelPoint env transform radius (loopAngle i)).2 (loopAngle (i + 1)) =
        (List.range' i k).map (chord env transform radius) := by
  intro k
  induction k with
  | zero =>
    intro i hi
    rw [circleLoop]
    simp [numberOfSegments, show ¬ i < 20 by omega]
  | succ k ih =>
    intro i hi
    rw [circleLoop_step env transform radius i (by omega), loopAngle_next env hr (i + 1),
      ih (i + 1) (by omega)]
    simp only [List.range'_succ, List.map_cons, chord, segment]

theorem drawSolidCircle_eq (env : Env) (hr : FloatRounding env.rnd) (transform : b2Transform)
    (radius : ℚ) (color : Nat) :
    drawSolidCircle env transform radius color =
      colorCall env color :: (List.range 20).map (chord env transform radius) := by
  have h1 : env.rnd (0 + angleStep env) = loopAngle 1 := by
    rw [angleStep_eq env hr]
    have := hr.ofNat 18 (by norm_num)
    simpa [loopAngle] using this
  have hstart : drawSolidCircle env transform radius color =
      colorCall env color ::
        circleLoop env transform radius 0 (circlePixelPoint env transform radius 0).1
          (circlePixelPoint env transform radius 0).2 (env.rnd (0 + angleStep env)) := by
    simp only [drawSolidCircle, colorCall, circlePixelPoint, pixelPoint, toRadians]
  have h0 : (0 : ℚ) = loopAngle 0 := by norm_num [loopAngle]
  rw [hstart, h1]
  conv_lhs => rw [h0]
  rw [circleLoop_eq env hr transform radius 20 0 (by norm_num), List.range_eq_range']

/-- C10. `drawSolidCircle` issues, after the colour call, exactly 20 line draws; with
`P a` the transform of `(radius * cos (a * 3.14 / 180), radius * sin (a * 3.14 / 180))`
times `pixelsPerMeter` (`circlePixelPoint`), line `k` runs from `P (18 k)` to
`P (18 (k + 1))` for `k < 19` and the last line runs from `P 342` to `P 0`; so every line
starts at the end point of the previous one and the last line ends at the start point of
the first. -/
theorem circle_closed_loop (env : Env) (hr : FloatRounding env.rnd) (transform : b2Transform)
    (radius : ℚ) (color : Nat) :
    ∃ lines : List RenderCall,
      drawSolidCircle env transform radius color = colorCall env color :: lines ∧
      lines.length = 20 ∧
      (∀ k : Nat, k < 19 →
        lines[k]? = some (segment (circlePixelPoint env transform radius (18 * (k : ℚ)))
                                   (circlePixelPoint env transform radius (18 * ((k : ℚ) + 1))))) ∧
      lines[19]? = some (segment (circlePixelPoint env transform radius 342)
                                  (circlePixelPoint env transform radius 0)) ∧
      (∀ k : Nat, k < 19 →
        ∃ p : ℚ × ℚ, (lines[k]?).bind endPoint = some p ∧
          (lines[k + 1]?).bind startPoint = some p) ∧
      (∃ p : ℚ × ℚ, (lines[19]?).bind endPoint = some p ∧
          (lines[0]?).bind startPoint = some p) := by
  have hline : ∀ k : Nat, k < 20 →
      ((List.range 20).map (chord env transform radius))[k]? =
        some (chord env transform radius k) := by
    intro k hk
    simp [List.getElem?_map, List.getElem?_range hk]
  have hang : ∀ k : Nat, k < 20 → loopAngle k = 18 * (k : ℚ) := by
    intro k hk
    rw [loopAngle, Nat.mod_eq_of_lt (by omega)]
    push_cast
    ring
  have h20 : loopAngle 20 = 0 := by norm_num [loopAngle]
  refine ⟨(List.range 20).map (chord env transform radius),
    drawSolidCircle_eq env hr transform radius color, by simp, ?_, ?_, ?_, ?_⟩
  · intro k hk
    rw [hline k (by omega), chord, hang k (by omega), hang (k + 1) (by omega)]
    push_cast
    rfl
  · rw [hline 19 (by norm_num), chord, hang 19 (by norm_num), h20]
    norm_num
  · intro k hk
    refine ⟨circlePixelPoint env transform radius (loopAngle (k + 1)), ?_, ?_⟩
    · rw [hline k (by omega)]
      simp [chord, segment, endPoint]
    · rw [hline (k + 1) (by omega)]
      simp [chord, segment, startPoint]
  · refine ⟨circlePixelPoint env transform radius 0, ?_, ?_⟩
    · rw [hline 19 (by norm_num)]
      simp [chord, segment, endPoint, h20]
    · rw [hline 0 (by norm_num)]
      simp [chord, segment, startPoint, loopAngle]

/-- The unit circle at the origin in exact arithmetic, with the stand-in `cos` and `sin`
of `exactEnv`: the loop starts and ends at pixel (30, 0). -/
theorem circle_closed_loop_witness :
    FloatRounding exactEnv.rnd ∧
    ∃ lines : List RenderCall,
      drawSolidCircle exactEnv ⟨⟨0, 0⟩, ⟨1, 0⟩⟩ 1 255 = colorCall exactEnv 255 :: lines ∧
      lines.length = 20 ∧
      (lines[19]?).bind endPoint = some (30, 0) ∧
      (lines[0]?).bind startPoint = some (30, 0) := by
  obtain ⟨lines, h1, h2, h3, h4, _, _⟩ :=
    circle_closed_loop exactEnv floatRounding_exactEnv ⟨⟨0, 0⟩, ⟨1, 0⟩⟩ 1 255
  have hP0 : circlePixelPoint exactEnv ⟨⟨0, 0⟩, ⟨1, 0⟩⟩ 1 0 = (30, 0) := by
    norm_num [circlePixelPoint, pixelPoint, toRadians, exactEnv, exactTransformPoint,
      pixelsPerMeter]
  have h0 := h3 0 (by norm_num)
  refine ⟨floatRounding_exactEnv, lines, h1, h2, ?_, ?_⟩
  · rw [h4, hP0]
    rfl
  · rw [h0]
    norm_num [hP0, segment, startPoint]

end Arkanoid
